import Mathlib

/-!
# ts-alert-enricher: webhook relay (`function.go`)

A shallow embedding of the Go cloud function that receives alert webhooks,
fetches alert / events / context for every identifier from the upstream API
and forwards the assembled batch to a destination URL.

Conventions of the embedding
* Go `string` is `String` (valid UTF-8), Go `bool` is `Bool`, Go `int` and
  `int64` are `GoInt` (64-bit); the status code of a response is an `Int`.
* A Go slice `[]T` is `Slice T = Option (List T)`; `none` is the nil slice.
* A Go `map[string]string` is `StrMap = Option (List (String × String))`;
  `none` is the nil map, `some` holds the entries sorted by key.
* A Go `interface{}` is `GoAny`: a decoded JSON value, or a value of another
  dynamic type given by its JSON encoding.
* A Go `(T, error)` result is `Except String T`, the string being `err.Error()`.
* Everything outside the repository (process environment, `net/url`,
  `encoding/json`, `net/http`, the `tsapi` client library) is collected in
  `Deps` and taken as a parameter.
* Network effects are explicit: every function returns, next to its result,
  the list of requests it handed to `client.Do`, in order.
* Log lines (`log.Printf`, `fmt.Printf`) are not part of the embedding.
-/

set_option linter.unusedVariables false

namespace Enricher

deriving instance DecidableEq for Except

/-! ## Data model (function.go lines 19-221) -/

/-- Go slice; `none` is the nil slice. -/
abbrev Slice (α : Type) := Option (List α)

/-- Go `map[string]string`; `none` is the nil map, `some kvs` a non-nil map
with the entries `kvs`, sorted by key. -/
abbrev StrMap := Option (List (String × String))

/-- Length of a slice as computed by `len`. -/
def Slice.len {α : Type} : Slice α → Nat
  | none => 0
  | some xs => xs.length

/-- Elements visited by `for _, v := range s`. -/
def Slice.elems {α : Type} : Slice α → List α
  | none => []
  | some xs => xs

/-- Go `append(s, x)`. -/
def Slice.append {α : Type} (s : Slice α) (x : α) : Slice α :=
  some (s.elems ++ [x])

/-- Go `int` and `int64`: a 64-bit signed integer. -/
abbrev GoInt := { i : Int // -9223372036854775808 ≤ i ∧ i ≤ 9223372036854775807 }

instance : Inhabited GoInt := ⟨⟨0, by decide⟩⟩

/-- A finite `float64`, given by its IEEE-754 bit pattern: 64 bits whose
exponent field is not all ones. -/
abbrev FiniteFloat64 :=
  { bits : Nat // bits < 18446744073709551616 ∧ (bits / 4503599627370496) % 2048 ≠ 2047 }

instance : Inhabited FiniteFloat64 := ⟨⟨0, by decide⟩⟩

/-- A JSON document. A number literal is given by its two readings:
`asInt`, the integer it denotes when it is in integer form (no fraction, no
exponent), and `asFloat`, the finite `float64` it parses to (`none` when it is
out of range). -/
inductive JVal where
  | null : JVal
  | bool (b : Bool) : JVal
  | num (asInt : Option Int) (asFloat : Option FiniteFloat64) : JVal
  | str (s : String) : JVal
  | arr (xs : List JVal) : JVal
  | obj (kvs : List (String × JVal)) : JVal
deriving Inhabited

mutual
/-- Equality test on JSON documents. -/
def JVal.same : JVal → JVal → Bool
  | .null, .null => true
  | .bool a, .bool b => a == b
  | .num a f, .num b g => a == b && f.map (fun x => x.val) == g.map (fun x => x.val)
  | .str a, .str b => a == b
  | .arr xs, .arr ys => sameList xs ys
  | .obj xs, .obj ys => sameMembers xs ys
  | _, _ => false
def sameList : List JVal → List JVal → Bool
  | [], [] => true
  | x :: xs, y :: ys => x.same y && sameList xs ys
  | _, _ => false
def sameMembers : List (String × JVal) → List (String × JVal) → Bool
  | [], [] => true
  | (k, x) :: xs, (l, y) :: ys => k == l && x.same y && sameMembers xs ys
  | _, _ => false
end

/-- A value of type `interface{}`. The first six constructors are the
dynamic types the JSON decoder produces: `nil`, `bool`, `float64` (finite),
`string`, `[]interface{}` (non-nil) and `map[string]interface{}` (non-nil,
its entries sorted by key). A value of any other dynamic type that
`json.Marshal` can encode (an `int`, a named string type, a nil slice, a
struct) is `other doc`, given by the document `json.Marshal` writes for it. -/
inductive GoAny where
  | nil : GoAny
  | bool (b : Bool) : GoAny
  | float64 (f : FiniteFloat64) : GoAny
  | string (s : String) : GoAny
  | slice (xs : List GoAny) : GoAny
  | map (kvs : List (String × GoAny)) : GoAny
  | other (doc : JVal) : GoAny
deriving Inhabited

/-- DismissReason stores different reasons for dismissing an alert. -/
abbrev DismissReason := String

def DismissBusinessOp : DismissReason := "BUSINESS_OP"
def DismissCompanyPolicy : DismissReason := "COMPANY_POLICY"
def DismissMaintenance : DismissReason := "MAINTENANCE"
def DismissOther : DismissReason := "OTHER"

/-- Alert stores information related to an individual alert. -/
structure Alert where
  ID : String
  Title : String
  DataSource : String
  CreatedAt : String
  IsDismissed : Bool
  DismissedAt : String
  DismissReason : DismissReason
  DismissReasonText : String
  DismissedBy : String
  Severity : GoInt
  AgentID : String
  RuleID : String
  RulesetID : String
  Aggregates : StrMap
deriving DecidableEq, Inhabited

/-- Anonymous struct `provider_metadata` of an event. -/
structure ProviderMetadata where
  CloudProvider : String
  AccountID : String
  AvailabilityZone : String
deriving DecidableEq, Inhabited

/-- Anonymous struct element of `network_metadata` of an event. -/
structure NetworkMetadata where
  VpcID : String
  PublicDNSName : Slice String
  PrivateIPAddress : Slice String
  PrivateDNSName : Slice String
  NetworkInterface : String
  PublicIPAddress : Slice String
  SubnetID : String
deriving DecidableEq, Inhabited

/-- Anonymous struct `agent_metadata` of an event. -/
structure AgentMetadata where
  AgentID : String
  DeploymentMode : String
  Version : String
deriving DecidableEq, Inhabited

/-- Anonymous struct `host_metadata` of an event. -/
structure HostMetadata where
  Kernel : String
  Hostname : String
  ImageID : String
  OsVersion : String
  InstanceID : String
  InstanceType : String
deriving DecidableEq, Inhabited

/-- Anonymous struct `parent_metadata` of an event. -/
structure ParentMetadata where
  Exe : String
  Pid : GoInt
  Timestamp : GoInt
deriving DecidableEq, Inhabited

/-- Anonymous struct `header` of an event. -/
structure Header where
  ID : GoInt
  Milliseconds : GoInt
  SequenceID : GoInt
  Timestamp : GoInt
deriving DecidableEq, Inhabited

/-- Anonymous struct `containerLabels` of an event. -/
structure ContainerLabels where
  IoCriContainerdKind : String
  IoKubernetesPodName : String
  IoKubernetesPodUID : String
  IoKubernetesPodNamespace : String
  IoKubernetesContainerName : String
deriving DecidableEq, Inhabited

/-- Anonymous struct element of `AlertEvents.Events`. -/
structure Event where
  Timestamp : GoInt
  ProviderMetadata : ProviderMetadata
  NetworkMetadata : Slice NetworkMetadata
  AgentMetadata : AgentMetadata
  HostMetadata : HostMetadata
  PodName : String
  Success : Bool
  Path : Slice String
  Gid : GoInt
  ContainerImage : String
  ID : String
  PodUID : String
  EventClass : String
  ContainerID : String
  Command : String
  ParentMetadata : ParentMetadata
  Auid : GoInt
  Pid : GoInt
  TsEventType : String
  EventTime : GoInt
  EventType : String
  OrganizationID : String
  Session : GoInt
  Exit : String
  UID : GoInt
  Cwd : String
  Header : Header
  Ppid : GoInt
  Args : Slice String
  IngestTime : GoInt
  Tty : String
  Syscall : String
  Type_ : String
  EventID : String
  Group : Slice String
  User : String
  AgentID : String
  Exe : String
  TimeID : String
  Tags : Slice GoAny
  ContainerLabels : ContainerLabels
deriving Inhabited

/-- Autogenerated from json response. -/
structure AlertEvents where
  Events : Slice Event
deriving Inhabited

/-- Anonymous struct element of `agent` / `topAgents`. -/
structure AgentCount where
  AgentID : String
  Hostname : String
  Count : GoInt
deriving DecidableEq, Inhabited

/-- Anonymous struct element of `userAgents`. -/
structure UserAgent where
  User : String
  Agent : Slice AgentCount
  TopAgents : Slice AgentCount
deriving DecidableEq, Inhabited

/-- Anonymous struct element of `processes` / `topProcesses`. -/
structure ProcessCount where
  Exe : String
  Count : GoInt
deriving DecidableEq, Inhabited

/-- Anonymous struct element of `userProcesses`. -/
structure UserProcess where
  User : String
  Processes : Slice ProcessCount
  TopProcesses : Slice ProcessCount
deriving DecidableEq, Inhabited

/-- Anonymous struct element of `topSources`. -/
structure TopSource where
  Source : String
  Destination : GoAny
  IsWan : GoAny
  Count : GoInt
deriving Inhabited

/-- Anonymous struct element of `userSources`. -/
structure UserSource where
  User : String
  Sources : Slice GoAny
  TopSources : Slice TopSource
deriving Inhabited

/-- Anonymous struct element of `digests`. -/
structure DigestEntry where
  AlertType : String
  Indicator : String
  Digest : String
  Template : String
  Values : StrMap
deriving DecidableEq, Inhabited

/-- Autogenerated from json response. -/
structure AlertContext where
  UserAgents : Slice UserAgent
  UserProcesses : Slice UserProcess
  UserSources : Slice UserSource
  CloudtrailSources : GoAny
  CloudtrailTasks : GoAny
  CloudtrailAuthMethods : GoAny
  Digests : Slice DigestEntry
deriving Inhabited

/-- FullAlert stores all information related to an individual alert. -/
structure FullAlert where
  Alert : Alert
  AlertEvents : AlertEvents
  AlertContext : AlertContext
deriving Inhabited

structure FullAlerts where
  Alerts : Slice FullAlert
deriving Inhabited

structure AlertHookData where
  Id : String
  CreatedAt : GoInt
  OrganizationId : String
  OrganizationName : String
  ServerOrRegion : String
  Severity : GoInt
  Source : String
  Title : String
deriving DecidableEq, Inhabited

structure AlertHookRaw where
  Alerts : Slice AlertHookData
deriving DecidableEq, Inhabited

/-- Config of the upstream API client (`tsapi.Config`): user, key, organisation. -/
structure Config where
  User : String
  Key : String
  Org : String
deriving DecidableEq, Inhabited

/-- AlertProcessor without its `client` field; the client is `Deps.clientDo`. -/
structure AlertProcessor where
  config : Config
  destinationUrl : String
deriving DecidableEq, Inhabited

/-! ## HTTP values and the external dependencies -/

/-- An outgoing `*http.Request`: method, URL, header entries, body bytes. -/
structure HttpRequest where
  method : String
  url : String
  header : List (String × String)
  body : String
deriving DecidableEq, Inhabited

/-- The part of an `*http.Response` the code reads: `StatusCode` and the body
bytes. -/
structure HttpResponse where
  statusCode : Int
  body : String
deriving DecidableEq, Inhabited

/-- The incoming `*http.Request` of the handler: `r.Method`,
`r.URL.RawQuery`, the bytes of `r.Body`. -/
structure Request where
  method : String
  rawQuery : String
  body : String
deriving DecidableEq, Inhabited

/-- Everything the code calls that lives outside the repository.

* `lookupEnv` is `os.LookupEnv` (`none` when the variable is not set).
* `parseQuery raw key` is `m[key]` for `m, _ := url.ParseQuery(raw)`: the
  values of `key` in the order they appear in the query string.
* `decodeHook`, `decodeAlert`, `decodeEvents`, `decodeContext` are
  `json.NewDecoder(body).Decode(&x)` at the four target types.
* `marshal` is `json.Marshal` at `FullAlerts`.
* `tsRequest cfg method url` is `tsapi.Request(cfg, method, url, nil)`: an
  error, or the header entries of the authenticated request it builds for
  that method and URL.
* `newRequest method url` is the error of `http.NewRequest(method, url, _)`,
  `none` when the request is built.
* `clientDo` is `ap.client.Do`: a transport error or the response; within one
  invocation the same request gets the same answer. -/
structure Deps where
  lookupEnv : String → Option String
  parseQuery : String → String → List String
  decodeHook : String → Except String AlertHookRaw
  decodeAlert : String → Except String Alert
  decodeEvents : String → Except String AlertEvents
  decodeContext : String → Except String AlertContext
  marshal : FullAlerts → Except String String
  tsRequest : Config → String → String → Except String (List (String × String))
  newRequest : String → String → Option String
  clientDo : HttpRequest → Except String HttpResponse

/-- Result of running a piece of the processor: the Go return value and the
requests handed to `client.Do`, oldest first. -/
structure Outcome (α : Type) where
  result : Except String α
  calls : List HttpRequest

/-- The test `err != nil` on a Go `(T, error)` result. -/
def isErr {α : Type} : Except String α → Bool
  | .error _ => true
  | .ok _ => false

/-- Rendering of an `error` by `fmt` under the verb `%b` (used by
`processAlert`): the verb is not a string verb, so `Error()` is not called
and the `*errors.errorString` is printed as a pointer to a struct whose
string field gets the bad-verb marker `%!b(string=...)`. -/
def fmtErrB (msg : String) : String :=
  "&\x7b%!b(string=" ++ msg ++ ")\x7d"

/-! ## Alert processor (function.go lines 227-349) -/

def alertEndpoint (id : String) : String :=
  "https://api.threatstack.com/v2/alerts/" ++ id

def eventsEndpoint (id : String) : String :=
  "https://api.threatstack.com/v2/alerts/" ++ id ++ "/events"

def contextEndpoint (id : String) : String :=
  "https://api.threatstack.com/v2/alerts/" ++ id ++ "/context"

def fetchAlert (d : Deps) (ap : AlertProcessor) (id : String) : Outcome Alert :=
  match d.tsRequest ap.config "GET" (alertEndpoint id) with
  | .error err => ⟨.error ("failed to construct alert request: " ++ err), []⟩
  | .ok hdr =>
    let req : HttpRequest := ⟨"GET", alertEndpoint id, hdr, ""⟩
    match d.clientDo req with
    | .error err => ⟨.error ("fetch alert failed: " ++ err), [req]⟩
    | .ok resp =>
      if resp.statusCode ≠ 200 then
        ⟨.error ("fetch alert failed with code " ++ toString resp.statusCode ++ ": <nil>"), [req]⟩
      else
        match d.decodeAlert resp.body with
        | .error err => ⟨.error ("failed to decode alert response: " ++ err), [req]⟩
        | .ok a => ⟨.ok a, [req]⟩

def fetchEvents (d : Deps) (ap : AlertProcessor) (id : String) : Outcome AlertEvents :=
  match d.tsRequest ap.config "GET" (eventsEndpoint id) with
  | .error err => ⟨.error ("failed to construct alert request: " ++ err), []⟩
  | .ok hdr =>
    let req : HttpRequest := ⟨"GET", eventsEndpoint id, hdr, ""⟩
    match d.clientDo req with
    | .error err => ⟨.error ("fetch alert failed: " ++ err), [req]⟩
    | .ok resp =>
      if resp.statusCode ≠ 200 then
        ⟨.error ("fetch alert failed with code " ++ toString resp.statusCode ++ ": <nil>"), [req]⟩
      else
        match d.decodeEvents resp.body with
        | .error err => ⟨.error ("failed to decode alert response: " ++ err), [req]⟩
        | .ok e => ⟨.ok e, [req]⟩

def fetchContext (d : Deps) (ap : AlertProcessor) (id : String) : Outcome AlertContext :=
  match d.tsRequest ap.config "GET" (contextEndpoint id) with
  | .error err => ⟨.error ("failed to construct alert request: " ++ err), []⟩
  | .ok hdr =>
    let req : HttpRequest := ⟨"GET", contextEndpoint id, hdr, ""⟩
    match d.clientDo req with
    | .error err => ⟨.error ("fetch alert failed: " ++ err), [req]⟩
    | .ok resp =>
      if resp.statusCode ≠ 200 then
        ⟨.error ("fetch context failed with code " ++ toString resp.statusCode ++ ": <nil>"), [req]⟩
      else
        match d.decodeContext resp.body with
        | .error err => ⟨.error ("failed to decode alert response: " ++ err), [req]⟩
        | .ok c => ⟨.ok c, [req]⟩

def processAlert (d : Deps) (ap : AlertProcessor) (id : String) : Outcome FullAlert :=
  let ra := fetchAlert d ap id
  match ra.result with
  | .error err =>
    ⟨.error ("processing alert " ++ id ++ " failed: " ++ fmtErrB err), ra.calls⟩
  | .ok a =>
    let re := fetchEvents d ap id
    match re.result with
    | .error err =>
      ⟨.error ("processing events " ++ id ++ " failed: " ++ fmtErrB err), ra.calls ++ re.calls⟩
    | .ok e =>
      let rc := fetchContext d ap id
      match rc.result with
      | .error err =>
        ⟨.error ("processing context " ++ id ++ " failed: " ++ fmtErrB err),
          ra.calls ++ re.calls ++ rc.calls⟩
      | .ok c => ⟨.ok ⟨a, e, c⟩, ra.calls ++ re.calls ++ rc.calls⟩

def forwardData (d : Deps) (ap : AlertProcessor) (a : FullAlerts) : Outcome Unit :=
  let url := ap.destinationUrl
  let jsonBytes : String :=
    match d.marshal a with
    | .ok bytes => bytes
    | .error _ => ""
  match d.newRequest "POST" url with
  | some err => ⟨.error ("failed constructing full alert req: " ++ err), []⟩
  | none =>
    let req : HttpRequest :=
      ⟨"POST", url, [("Content-Type", "application/json; charset=UTF-8")], jsonBytes⟩
    match d.clientDo req with
    | .error err => ⟨.error ("failed forwarding full alert: " ++ err), [req]⟩
    | .ok response =>
      if response.statusCode ≥ 300 then
        ⟨.error ("error code from forward destination: " ++ toString response.statusCode
          ++ " - " ++ response.body), [req]⟩
      else ⟨.ok (), [req]⟩

/-- The `for _, v := range a.Alerts` loop of `processAlerts`: `rest` are the
entries still to visit, `allAlerts` the accumulator; on completion the loop
falls through to `forwardData`. -/
def processLoop (d : Deps) (ap : AlertProcessor) :
    List AlertHookData → FullAlerts → Outcome Unit
  | [], allAlerts => forwardData d ap allAlerts
  | v :: rest, allAlerts =>
    if v.Id = "" then ⟨.error "alertId not found in data", []⟩
    else
      let r := processAlert d ap v.Id
      match r.result with
      | .error err => ⟨.error err, r.calls⟩
      | .ok alert =>
        let k := processLoop d ap rest ⟨allAlerts.Alerts.append alert⟩
        ⟨k.result, r.calls ++ k.calls⟩

def processAlerts (d : Deps) (ap : AlertProcessor) (a : AlertHookRaw) : Outcome Unit :=
  if a.Alerts.len = 0 then ⟨.ok (), []⟩
  else processLoop d ap a.Alerts.elems ⟨none⟩

/-! ## Webhook handler (function.go lines 351-418) -/

/-- What `receiveAlert` does: the status code and body written to the
`ResponseWriter`, whether `r.Body` was handed to the JSON decoder, and the
requests handed to `client.Do`. -/
structure Handled where
  status : Nat
  body : String
  bodyDecoded : Bool
  calls : List HttpRequest
deriving DecidableEq

/-- The call `http.Error(w, msg, code)`: status `code`, body `msg` and a newline. -/
def httpError (msg : String) (code : Nat) (bodyDecoded : Bool)
    (calls : List HttpRequest) : Handled :=
  ⟨code, msg ++ "\n", bodyDecoded, calls⟩

def receiveAlert (d : Deps) (r : Request) : Handled :=
  if r.method ≠ "POST" then httpError "405 - Method Not Allowed" 405 false []
  else
    match d.lookupEnv "API_KEY" with
    | none => httpError "500 - InternalServerError" 500 false []
    | some apiKey =>
      let m := d.parseQuery r.rawQuery
      if (m "api_key").length = 0 ∨ (m "api_key").head? ≠ some apiKey then
        httpError "401 - Unauthorized" 401 false []
      else
        match d.lookupEnv "DESTINATION_URL" with
        | none => httpError "500 - InternalServerError" 500 false []
        | some dst =>
          match d.lookupEnv "TS_USER" with
          | none => httpError "500 - InternalServerError" 500 false []
          | some tsUser =>
            match d.lookupEnv "TS_KEY" with
            | none => httpError "500 - InternalServerError" 500 false []
            | some tsKey =>
              match d.lookupEnv "TS_ORG" with
              | none => httpError "500 - InternalServerError" 500 false []
              | some tsOrg =>
                match d.decodeHook r.body with
                | .error err => httpError err 400 true []
                | .ok a =>
                  let ap : AlertProcessor := ⟨⟨tsUser, tsKey, tsOrg⟩, dst⟩
                  let o := processAlerts d ap a
                  match o.result with
                  | .error err => httpError err 400 true o.calls
                  | .ok _ => ⟨200, "OK" ++ "\n", true, o.calls⟩

/-! ## Vocabulary of the statements -/

/-- Method and URL of a request handed to `client.Do`. -/
def callKey (c : HttpRequest) : String × String := (c.method, c.url)

/-- The three upstream calls of one identifier, in program order. -/
def fetchKeys (id : String) : List (String × String) :=
  [("GET", alertEndpoint id), ("GET", eventsEndpoint id), ("GET", contextEndpoint id)]

/-- The full call sequence of a batch: alert, events, context for every
identifier in input order, then the forward. -/
def plannedCalls (ids : List String) (dst : String) : List (String × String) :=
  (ids.map fetchKeys).flatten ++ [("POST", dst)]

/-- The upstream answers the authenticated GET for `url` with `resp`: the
request is built and `client.Do` returns `resp` without transport error. -/
def Answers (d : Deps) (ap : AlertProcessor) (url : String) (resp : HttpResponse) : Prop :=
  ∃ hdr, d.tsRequest ap.config "GET" url = .ok hdr ∧
    d.clientDo ⟨"GET", url, hdr, ""⟩ = .ok resp

/-- The request is a POST, the five environment variables are set and
configure the processor `ap`, and the first `api_key` value of the query
equals `API_KEY`. -/
def Admitted (d : Deps) (r : Request) (ap : AlertProcessor) : Prop :=
  r.method = "POST" ∧
  (∃ apiKey, d.lookupEnv "API_KEY" = some apiKey ∧
    (d.parseQuery r.rawQuery "api_key").head? = some apiKey) ∧
  d.lookupEnv "DESTINATION_URL" = some ap.destinationUrl ∧
  d.lookupEnv "TS_USER" = some ap.config.User ∧
  d.lookupEnv "TS_KEY" = some ap.config.Key ∧
  d.lookupEnv "TS_ORG" = some ap.config.Org

/-- The request `forwardData` hands to `client.Do` for payload `a`. -/
def forwardRequest (d : Deps) (ap : AlertProcessor) (a : FullAlerts) : HttpRequest :=
  ⟨"POST", ap.destinationUrl, [("Content-Type", "application/json; charset=UTF-8")],
    match d.marshal a with
    | .ok bytes => bytes
    | .error _ => ""⟩

/-- The batch assembled from per-identifier fetch results, in input order. -/
def assembledBatch (fa : String → Alert) (fe : String → AlertEvents)
    (fc : String → AlertContext) (alerts : List AlertHookData) : FullAlerts :=
  ⟨some (alerts.map (fun v => ⟨fa v.Id, fe v.Id, fc v.Id⟩))⟩

/-- The requests of a call list that are GETs. -/
def gets (calls : List HttpRequest) : List HttpRequest :=
  calls.filter (fun c => decide (c.method = "GET"))

/-- The requests of a call list that are POSTs. -/
def posts (calls : List HttpRequest) : List HttpRequest :=
  calls.filter (fun c => decide (c.method = "POST"))

/-! ## Sample dependencies used to exercise the statements -/

/-- An inbound entry carrying only an identifier. -/
def hookEntry (id : String) : AlertHookData :=
  ⟨id, default, "", "", "", default, "", ""⟩

/-- A process environment with all five variables set. -/
def sampleEnv (k : String) : Option String :=
  if k = "API_KEY" then some "secret"
  else if k = "DESTINATION_URL" then some "https://siem.example/hook"
  else if k = "TS_USER" then some "user"
  else if k = "TS_KEY" then some "key"
  else if k = "TS_ORG" then some "org"
  else none

/-- The processor `receiveAlert` builds under `sampleEnv`. -/
def sampleProcessor : AlertProcessor :=
  ⟨⟨"user", "key", "org"⟩, "https://siem.example/hook"⟩

/-- Sample behaviour of the outside world: a table for three query strings
and three bodies, an upstream that answers 404 for the alert `gone`, an
undecodable body for the context of `odd` and `200` with a decodable body
otherwise, and a destination that answers with `dstStatus`. The request
constructor rejects the URL `://` (missing protocol scheme). -/
def sampleDeps (dstStatus : Int) : Deps where
  lookupEnv := sampleEnv
  parseQuery := fun raw key =>
    if key = "api_key" then
      if raw = "api_key=secret" then ["secret"]
      else if raw = "api_key=wrong&api_key=secret" then ["wrong", "secret"]
      else if raw = "api_key=SECRET" then ["SECRET"]
      else []
    else []
  decodeHook := fun body =>
    if body = "\x7b\"Alerts\":[]\x7d" then .ok ⟨some []⟩
    else if body = "\x7b\"Alerts\":[\x7b\"Id\":\"a1\"\x7d]\x7d" then .ok ⟨some [hookEntry "a1"]⟩
    else if body = "\x7b\"Alerts\":[\x7b\"Id\":\"a1\"\x7d,\x7b\"Id\":\"\"\x7d]\x7d" then
      .ok ⟨some [hookEntry "a1", hookEntry ""]⟩
    else if body = "\x7b\"Alerts\":[\x7b\"Id\":\"a1\"\x7d,\x7b\"Id\":\"gone\"\x7d]\x7d" then
      .ok ⟨some [hookEntry "a1", hookEntry "gone"]⟩
    else .error "invalid character"
  decodeAlert := fun body =>
    if body = "\x7b\x7d" then .ok default else .error "unexpected end of JSON input"
  decodeEvents := fun body =>
    if body = "\x7b\x7d" then .ok default else .error "unexpected end of JSON input"
  decodeContext := fun body =>
    if body = "\x7b\x7d" then .ok default else .error "unexpected end of JSON input"
  marshal := fun a => .ok ("alerts:" ++ toString a.Alerts.len)
  tsRequest := fun cfg _ _ => .ok [("Authorization", cfg.User)]
  newRequest := fun _ url =>
    if url = "://" then some "parse \"://\": missing protocol scheme" else none
  clientDo := fun req =>
    if req.method = "GET" then
      if req.url = alertEndpoint "gone" then .ok ⟨404, "not found"⟩
      else if req.url = contextEndpoint "odd" then .ok ⟨200, "<html>"⟩
      else .ok ⟨200, "\x7b\x7d"⟩
    else .ok ⟨dstStatus, "received"⟩

/-- A processor whose destination URL `http.NewRequest` rejects. -/
def badUrlProcessor : AlertProcessor :=
  ⟨⟨"user", "key", "org"⟩, "://"⟩

/-- The sample dependencies without `DESTINATION_URL` in the environment. -/
def sampleDepsNoDestination : Deps :=
  { sampleDeps 200 with
    lookupEnv := fun k => if k = "DESTINATION_URL" then none else sampleEnv k }

/-! ## JSON encoding of the forwarded batch (`json.Marshal` / `json.Unmarshal`)

`forwardData` serialises a `FullAlerts` with `json.Marshal`, driven by the
struct tags of the data model. The encoder and decoder of `encoding/json`
are modelled on JSON documents (`JVal`), following the package
documentation:

* a struct is an object with one member per field, named by the tag, in
  declaration order; a field tagged `omitempty` is left out when empty;
* decoding an object into a struct visits the members in order, finds the
  field whose tag equals the key (or, failing that, matches it ignoring
  case), decodes into that field and skips unknown keys;
* `null` leaves a string, number, bool or struct unchanged and sets a slice,
  map or interface to nil;
* an array decoded into a slice decodes its i-th element into the i-th
  element the slice already has, and into a zero element past its length;
  an object decoded into a map allocates the map when nil and stores the
  members;
* a number decoded into `interface{}` is a `float64`; a number decoded into
  an `int` must be in integer form and in range;
* a document nested deeper than 10000 arrays and objects is refused.

The text layer (escaping, number formatting, the reader) is not modelled; it
enters as the parameter `parse`. A Go map is represented by its entries
sorted by key, the order `json.Marshal` uses. Capacity of a slice beyond its
length is not represented. -/

/-- The other reading of the number literals the encoder writes, which the
model does not compute.

* `floatAsInt f`: the integer denoted by the literal written for the float
  `f` when that literal is in integer form, `none` when it has a fraction or
  an exponent.
* `intAsFloat i`: the `float64` that the literal written for the integer `i`
  parses to, `none` when it is out of range. -/
structure JsonLib where
  floatAsInt : FiniteFloat64 → Option Int
  intAsFloat : Int → Option FiniteFloat64

/-- Case folding of one character of a key, for matching against the tags of
this program, which are all ASCII: an upper-case ASCII letter folds to its
lower-case letter, and U+017F (long s) and U+212A (Kelvin sign), the only
other characters that fold to an ASCII letter, fold to `s` and `k`. -/
def foldChar (c : Char) : Char :=
  if 65 ≤ c.toNat ∧ c.toNat ≤ 90 then Char.ofNat (c.toNat + 32)
  else if c.toNat = 383 then Char.ofNat 115
  else if c.toNat = 8490 then Char.ofNat 107
  else c

/-- The case-insensitive match of a key against an ASCII tag, used when no
tag equals the key. -/
def foldEq (tag key : String) : Bool :=
  tag.data.map foldChar == key.data.map foldChar

/-- Encoder and decoder of one Go type; `dec j cur` decodes `j` into a
variable currently holding `cur`. -/
structure Codec (α : Type) where
  enc : α → JVal
  dec : JVal → α → Except String α

/-- One struct field: its tag, its encoding (`none` when omitted) and the
decoding of a member value into the struct. -/
structure JField (S : Type) where
  name : String
  enc : S → Option JVal
  dec : JVal → S → Except String S

/-- A field without options. -/
def field {S α : Type} (name : String) (get : S → α) (set : S → α → S) (c : Codec α) :
    JField S :=
  ⟨name, fun s => some (c.enc (get s)), fun j s => (c.dec j (get s)).map (set s)⟩

/-- A field tagged `omitempty`. -/
def fieldOmitEmpty {S α : Type} (name : String) (get : S → α) (set : S → α → S)
    (isEmpty : α → Bool) (c : Codec α) : JField S :=
  ⟨name, fun s => if isEmpty (get s) then none else some (c.enc (get s)),
    fun j s => (c.dec j (get s)).map (set s)⟩

/-- The field a key is decoded into: exact tag match first, then the first
case-insensitive match. -/
def findField {S : Type} (fields : List (JField S)) (key : String) : Option (JField S) :=
  match fields.find? (fun f => f.name == key) with
  | some f => some f
  | none => fields.find? (fun f => foldEq f.name key)

/-- Decoding of the members of an object into a struct, in order. -/
def decMembers {S : Type} (fields : List (JField S)) :
    List (String × JVal) → S → Except String S
  | [], cur => .ok cur
  | (k, v) :: rest, cur =>
    match findField fields k with
    | none => decMembers fields rest cur
    | some f =>
      match f.dec v cur with
      | .error e => .error e
      | .ok cur2 => decMembers fields rest cur2

def structCodec {S : Type} (fields : List (JField S)) : Codec S where
  enc := fun s => .obj (fields.filterMap (fun f => (f.enc s).map (fun j => (f.name, j))))
  dec := fun j cur =>
    match j with
    | .null => .ok cur
    | .obj kvs => decMembers fields kvs cur
    | _ => .error "json: cannot unmarshal into Go struct"

def stringCodec : Codec String where
  enc := fun s => .str s
  dec := fun j cur =>
    match j with
    | .null => .ok cur
    | .str s => .ok s
    | _ => .error "json: cannot unmarshal into Go value of type string"

def boolCodec : Codec Bool where
  enc := fun b => .bool b
  dec := fun j cur =>
    match j with
    | .null => .ok cur
    | .bool b => .ok b
    | _ => .error "json: cannot unmarshal into Go value of type bool"

/-- An integer literal stored into a Go `int`: rejected when out of range. -/
def intOfLiteral (i : Int) : Except String GoInt :=
  if h : -9223372036854775808 ≤ i ∧ i ≤ 9223372036854775807 then .ok ⟨i, h⟩
  else .error "json: cannot unmarshal number into Go value of type int"

def intCodec (lib : JsonLib) : Codec GoInt where
  enc := fun i => .num (some i.val) (lib.intAsFloat i.val)
  dec := fun j cur =>
    match j with
    | .null => .ok cur
    | .num (some i) _ => intOfLiteral i
    | .num none _ => .error "json: cannot unmarshal number into Go value of type int"
    | _ => .error "json: cannot unmarshal into Go value of type int"

/-- Decoding of array elements into a slice currently holding `cur`: the
i-th element is decoded into the i-th current element when there is one and
into a fresh `zero` otherwise. -/
def decElems {α : Type} (c : Codec α) (zero : α) : List JVal → List α → Except String (List α)
  | [], _ => .ok []
  | x :: xs, cur =>
    match c.dec x (cur.headD zero) with
    | .error e => .error e
    | .ok a =>
      match decElems c zero xs cur.tail with
      | .error e => .error e
      | .ok as => .ok (a :: as)

def sliceCodec {α : Type} (c : Codec α) (zero : α) : Codec (Slice α) where
  enc := fun s =>
    match s with
    | none => .null
    | some xs => .arr (xs.map c.enc)
  dec := fun j cur =>
    match j with
    | .null => .ok none
    | .arr xs => (decElems c zero xs cur.elems).map some
    | _ => .error "json: cannot unmarshal into Go value of slice type"

/-- Lexicographic order on character sequences by code point (the byte
order of their UTF-8 encodings). -/
def ltChars : List Char → List Char → Bool
  | [], [] => false
  | [], _ :: _ => true
  | _ :: _, [] => false
  | a :: as, b :: bs =>
    if a.toNat < b.toNat then true
    else if a.toNat = b.toNat then ltChars as bs
    else false

/-- The order in which `json.Marshal` emits map keys. -/
def keyLt (a b : String) : Bool := ltChars a.data b.data

/-- The assignment `m[k] = v` on the sorted entries of a map. -/
def insertKey {β : Type} (k : String) (v : β) : List (String × β) → List (String × β)
  | [] => [(k, v)]
  | (k2, v2) :: rest =>
    if keyLt k k2 then (k, v) :: (k2, v2) :: rest
    else if k = k2 then (k, v) :: rest
    else (k2, v2) :: insertKey k v rest

/-- Decoding of the members of an object into a `map[string]string`. -/
def decStrMembers : List (String × JVal) → List (String × String) →
    Except String (List (String × String))
  | [], m => .ok m
  | (k, v) :: rest, m =>
    match stringCodec.dec v "" with
    | .error e => .error e
    | .ok s => decStrMembers rest (insertKey k s m)

def strMapCodec : Codec StrMap where
  enc := fun m =>
    match m with
    | none => .null
    | some kvs => .obj (kvs.map (fun kv => (kv.1, JVal.str kv.2)))
  dec := fun j cur =>
    match j with
    | .null => .ok none
    | .obj kvs => (decStrMembers kvs (cur.getD [])).map some
    | _ => .error "json: cannot unmarshal into Go value of type map[string]string"

/-- The test `len(m) == 0`, the emptiness test of `omitempty` on a map. -/
def StrMap.isEmpty (m : StrMap) : Bool :=
  match m with
  | none => true
  | some kvs => kvs.isEmpty

mutual
/-- Encoding of an `interface{}` value. -/
def encAny (lib : JsonLib) : GoAny → JVal
  | .nil => .null
  | .bool b => .bool b
  | .float64 f => .num (lib.floatAsInt f) (some f)
  | .string s => .str s
  | .slice xs => .arr (encAnyList lib xs)
  | .map kvs => .obj (encAnyMembers lib kvs)
  | .other doc => doc
def encAnyList (lib : JsonLib) : List GoAny → List JVal
  | [] => []
  | x :: xs => encAny lib x :: encAnyList lib xs
def encAnyMembers (lib : JsonLib) : List (String × GoAny) → List (String × JVal)
  | [] => []
  | (k, v) :: rest => (k, encAny lib v) :: encAnyMembers lib rest
end

mutual
/-- Decoding into an `interface{}`: the value is replaced by a fresh one. -/
def decAny : JVal → Except String GoAny
  | .null => .ok .nil
  | .bool b => .ok (.bool b)
  | .num _ (some f) => .ok (.float64 f)
  | .num _ none => .error "json: cannot unmarshal number into Go value of type float64"
  | .str s => .ok (.string s)
  | .arr xs =>
    match decAnyList xs with
    | .error e => .error e
    | .ok ys => .ok (.slice ys)
  | .obj kvs =>
    match decAnyMembers kvs [] with
    | .error e => .error e
    | .ok m => .ok (.map m)
def decAnyList : List JVal → Except String (List GoAny)
  | [] => .ok []
  | x :: xs =>
    match decAny x with
    | .error e => .error e
    | .ok y =>
      match decAnyList xs with
      | .error e => .error e
      | .ok ys => .ok (y :: ys)
def decAnyMembers : List (String × JVal) → List (String × GoAny) →
    Except String (List (String × GoAny))
  | [], m => .ok m
  | (k, v) :: rest, m =>
    match decAny v with
    | .error e => .error e
    | .ok y => decAnyMembers rest (insertKey k y m)
end

def anyCodec (lib : JsonLib) : Codec GoAny where
  enc := encAny lib
  dec := fun j _ => decAny j

def Alert.fields (lib : JsonLib) : List (JField Alert) := [
  field "id" (fun s => s.ID) (fun s x => { s with ID := x }) stringCodec,
  field "title" (fun s => s.Title) (fun s x => { s with Title := x }) stringCodec,
  field "dataSource" (fun s => s.DataSource) (fun s x => { s with DataSource := x }) stringCodec,
  field "createdAt" (fun s => s.CreatedAt) (fun s x => { s with CreatedAt := x }) stringCodec,
  field "isDismissed" (fun s => s.IsDismissed) (fun s x => { s with IsDismissed := x }) boolCodec,
  field "dismissedAt" (fun s => s.DismissedAt) (fun s x => { s with DismissedAt := x }) stringCodec,
  field "dismissReason" (fun s => s.DismissReason) (fun s x => { s with DismissReason := x }) stringCodec,
  field "dismissReasonText" (fun s => s.DismissReasonText) (fun s x => { s with DismissReasonText := x }) stringCodec,
  field "dismissedBy" (fun s => s.DismissedBy) (fun s x => { s with DismissedBy := x }) stringCodec,
  field "severity" (fun s => s.Severity) (fun s x => { s with Severity := x }) (intCodec lib),
  field "agentId" (fun s => s.AgentID) (fun s x => { s with AgentID := x }) stringCodec,
  field "ruleId" (fun s => s.RuleID) (fun s x => { s with RuleID := x }) stringCodec,
  field "rulesetId" (fun s => s.RulesetID) (fun s x => { s with RulesetID := x }) stringCodec,
  field "aggregates" (fun s => s.Aggregates) (fun s x => { s with Aggregates := x }) strMapCodec]

def Alert.codec (lib : JsonLib) : Codec Alert :=
  structCodec (Alert.fields lib)

def ProviderMetadata.fields (lib : JsonLib) : List (JField ProviderMetadata) := [
  field "cloud_provider" (fun s => s.CloudProvider) (fun s x => { s with CloudProvider := x }) stringCodec,
  field "account_id" (fun s => s.AccountID) (fun s x => { s with AccountID := x }) stringCodec,
  field "availability_zone" (fun s => s.AvailabilityZone) (fun s x => { s with AvailabilityZone := x }) stringCodec]

def ProviderMetadata.codec (lib : JsonLib) : Codec ProviderMetadata :=
  structCodec (ProviderMetadata.fields lib)

def NetworkMetadata.fields (lib : JsonLib) : List (JField NetworkMetadata) := [
  field "vpc_id" (fun s => s.VpcID) (fun s x => { s with VpcID := x }) stringCodec,
  field "public_dns_name" (fun s => s.PublicDNSName) (fun s x => { s with PublicDNSName := x }) (sliceCodec stringCodec ""),
  field "private_ip_address" (fun s => s.PrivateIPAddress) (fun s x => { s with PrivateIPAddress := x }) (sliceCodec stringCodec ""),
  field "private_dns_name" (fun s => s.PrivateDNSName) (fun s x => { s with PrivateDNSName := x }) (sliceCodec stringCodec ""),
  field "network_interface" (fun s => s.NetworkInterface) (fun s x => { s with NetworkInterface := x }) stringCodec,
  field "public_ip_address" (fun s => s.PublicIPAddress) (fun s x => { s with PublicIPAddress := x }) (sliceCodec stringCodec ""),
  field "subnet_id" (fun s => s.SubnetID) (fun s x => { s with SubnetID := x }) stringCodec]

def NetworkMetadata.codec (lib : JsonLib) : Codec NetworkMetadata :=
  structCodec (NetworkMetadata.fields lib)

def AgentMetadata.fields (lib : JsonLib) : List (JField AgentMetadata) := [
  field "agent_id" (fun s => s.AgentID) (fun s x => { s with AgentID := x }) stringCodec,
  field "deployment_mode" (fun s => s.DeploymentMode) (fun s x => { s with DeploymentMode := x }) stringCodec,
  field "version" (fun s => s.Version) (fun s x => { s with Version := x }) stringCodec]

def AgentMetadata.codec (lib : JsonLib) : Codec AgentMetadata :=
  structCodec (AgentMetadata.fields lib)

def HostMetadata.fields (lib : JsonLib) : List (JField HostMetadata) := [
  field "kernel" (fun s => s.Kernel) (fun s x => { s with Kernel := x }) stringCodec,
  field "hostname" (fun s => s.Hostname) (fun s x => { s with Hostname := x }) stringCodec,
  field "image_id" (fun s => s.ImageID) (fun s x => { s with ImageID := x }) stringCodec,
  field "os_version" (fun s => s.OsVersion) (fun s x => { s with OsVersion := x }) stringCodec,
  field "instance_id" (fun s => s.InstanceID) (fun s x => { s with InstanceID := x }) stringCodec,
  field "instance_type" (fun s => s.InstanceType) (fun s x => { s with InstanceType := x }) stringCodec]

def HostMetadata.codec (lib : JsonLib) : Codec HostMetadata :=
  structCodec (HostMetadata.fields lib)

def ParentMetadata.fields (lib : JsonLib) : List (JField ParentMetadata) := [
  field "exe" (fun s => s.Exe) (fun s x => { s with Exe := x }) stringCodec,
  field "pid" (fun s => s.Pid) (fun s x => { s with Pid := x }) (intCodec lib),
  field "timestamp" (fun s => s.Timestamp) (fun s x => { s with Timestamp := x }) (intCodec lib)]

def ParentMetadata.codec (lib : JsonLib) : Codec ParentMetadata :=
  structCodec (ParentMetadata.fields lib)

def Header.fields (lib : JsonLib) : List (JField Header) := [
  field "id" (fun s => s.ID) (fun s x => { s with ID := x }) (intCodec lib),
  field "milliseconds" (fun s => s.Milliseconds) (fun s x => { s with Milliseconds := x }) (intCodec lib),
  field "sequence_id" (fun s => s.SequenceID) (fun s x => { s with SequenceID := x }) (intCodec lib),
  field "timestamp" (fun s => s.Timestamp) (fun s x => { s with Timestamp := x }) (intCodec lib)]

def Header.codec (lib : JsonLib) : Codec Header :=
  structCodec (Header.fields lib)

def ContainerLabels.fields (lib : JsonLib) : List (JField ContainerLabels) := [
  field "io.cri-containerd.kind" (fun s => s.IoCriContainerdKind) (fun s x => { s with IoCriContainerdKind := x }) stringCodec,
  field "io.kubernetes.pod.name" (fun s => s.IoKubernetesPodName) (fun s x => { s with IoKubernetesPodName := x }) stringCodec,
  field "io.kubernetes.pod.uid" (fun s => s.IoKubernetesPodUID) (fun s x => { s with IoKubernetesPodUID := x }) stringCodec,
  field "io.kubernetes.pod.namespace" (fun s => s.IoKubernetesPodNamespace) (fun s x => { s with IoKubernetesPodNamespace := x }) stringCodec,
  field "io.kubernetes.container.name" (fun s => s.IoKubernetesContainerName) (fun s x => { s with IoKubernetesContainerName := x }) stringCodec]

def ContainerLabels.codec (lib : JsonLib) : Codec ContainerLabels :=
  structCodec (ContainerLabels.fields lib)

def Event.fields (lib : JsonLib) : List (JField Event) := [
  field "timestamp" (fun s => s.Timestamp) (fun s x => { s with Timestamp := x }) (intCodec lib),
  field "provider_metadata" (fun s => s.ProviderMetadata) (fun s x => { s with ProviderMetadata := x }) (ProviderMetadata.codec lib),
  field "network_metadata" (fun s => s.NetworkMetadata) (fun s x => { s with NetworkMetadata := x }) (sliceCodec (NetworkMetadata.codec lib) default),
  field "agent_metadata" (fun s => s.AgentMetadata) (fun s x => { s with AgentMetadata := x }) (AgentMetadata.codec lib),
  field "host_metadata" (fun s => s.HostMetadata) (fun s x => { s with HostMetadata := x }) (HostMetadata.codec lib),
  field "pod_name" (fun s => s.PodName) (fun s x => { s with PodName := x }) stringCodec,
  field "success" (fun s => s.Success) (fun s x => { s with Success := x }) boolCodec,
  field "path" (fun s => s.Path) (fun s x => { s with Path := x }) (sliceCodec stringCodec ""),
  field "gid" (fun s => s.Gid) (fun s x => { s with Gid := x }) (intCodec lib),
  field "container_image" (fun s => s.ContainerImage) (fun s x => { s with ContainerImage := x }) stringCodec,
  field "_id" (fun s => s.ID) (fun s x => { s with ID := x }) stringCodec,
  field "pod_uid" (fun s => s.PodUID) (fun s x => { s with PodUID := x }) stringCodec,
  field "eventClass" (fun s => s.EventClass) (fun s x => { s with EventClass := x }) stringCodec,
  field "container_id" (fun s => s.ContainerID) (fun s x => { s with ContainerID := x }) stringCodec,
  field "command" (fun s => s.Command) (fun s x => { s with Command := x }) stringCodec,
  field "parent_metadata" (fun s => s.ParentMetadata) (fun s x => { s with ParentMetadata := x }) (ParentMetadata.codec lib),
  field "auid" (fun s => s.Auid) (fun s x => { s with Auid := x }) (intCodec lib),
  field "pid" (fun s => s.Pid) (fun s x => { s with Pid := x }) (intCodec lib),
  field "ts_event_type" (fun s => s.TsEventType) (fun s x => { s with TsEventType := x }) stringCodec,
  field "event_time" (fun s => s.EventTime) (fun s x => { s with EventTime := x }) (intCodec lib),
  field "event_type" (fun s => s.EventType) (fun s x => { s with EventType := x }) stringCodec,
  field "organization_id" (fun s => s.OrganizationID) (fun s x => { s with OrganizationID := x }) stringCodec,
  field "session" (fun s => s.Session) (fun s x => { s with Session := x }) (intCodec lib),
  field "exit" (fun s => s.Exit) (fun s x => { s with Exit := x }) stringCodec,
  field "uid" (fun s => s.UID) (fun s x => { s with UID := x }) (intCodec lib),
  field "cwd" (fun s => s.Cwd) (fun s x => { s with Cwd := x }) stringCodec,
  field "header" (fun s => s.Header) (fun s x => { s with Header := x }) (Header.codec lib),
  field "ppid" (fun s => s.Ppid) (fun s x => { s with Ppid := x }) (intCodec lib),
  field "args" (fun s => s.Args) (fun s x => { s with Args := x }) (sliceCodec stringCodec ""),
  field "ingest_time" (fun s => s.IngestTime) (fun s x => { s with IngestTime := x }) (intCodec lib),
  field "tty" (fun s => s.Tty) (fun s x => { s with Tty := x }) stringCodec,
  field "syscall" (fun s => s.Syscall) (fun s x => { s with Syscall := x }) stringCodec,
  field "type" (fun s => s.Type_) (fun s x => { s with Type_ := x }) stringCodec,
  field "event_id" (fun s => s.EventID) (fun s x => { s with EventID := x }) stringCodec,
  field "group" (fun s => s.Group) (fun s x => { s with Group := x }) (sliceCodec stringCodec ""),
  field "user" (fun s => s.User) (fun s x => { s with User := x }) stringCodec,
  field "agent_id" (fun s => s.AgentID) (fun s x => { s with AgentID := x }) stringCodec,
  field "exe" (fun s => s.Exe) (fun s x => { s with Exe := x }) stringCodec,
  field "time_id" (fun s => s.TimeID) (fun s x => { s with TimeID := x }) stringCodec,
  field "tags" (fun s => s.Tags) (fun s x => { s with Tags := x }) (sliceCodec (anyCodec lib) GoAny.nil),
  field "containerLabels" (fun s => s.ContainerLabels) (fun s x => { s with ContainerLabels := x }) (ContainerLabels.codec lib)]

def Event.codec (lib : JsonLib) : Codec Event :=
  structCodec (Event.fields lib)

def AlertEvents.fields (lib : JsonLib) : List (JField AlertEvents) := [
  field "events" (fun s => s.Events) (fun s x => { s with Events := x }) (sliceCodec (Event.codec lib) default)]

def AlertEvents.codec (lib : JsonLib) : Codec AlertEvents :=
  structCodec (AlertEvents.fields lib)

def AgentCount.fields (lib : JsonLib) : List (JField AgentCount) := [
  field "agentId" (fun s => s.AgentID) (fun s x => { s with AgentID := x }) stringCodec,
  field "hostname" (fun s => s.Hostname) (fun s x => { s with Hostname := x }) stringCodec,
  field "count" (fun s => s.Count) (fun s x => { s with Count := x }) (intCodec lib)]

def AgentCount.codec (lib : JsonLib) : Codec AgentCount :=
  structCodec (AgentCount.fields lib)

def UserAgent.fields (lib : JsonLib) : List (JField UserAgent) := [
  field "user" (fun s => s.User) (fun s x => { s with User := x }) stringCodec,
  field "agent" (fun s => s.Agent) (fun s x => { s with Agent := x }) (sliceCodec (AgentCount.codec lib) default),
  field "topAgents" (fun s => s.TopAgents) (fun s x => { s with TopAgents := x }) (sliceCodec (AgentCount.codec lib) default)]

def UserAgent.codec (lib : JsonLib) : Codec UserAgent :=
  structCodec (UserAgent.fields lib)

def ProcessCount.fields (lib : JsonLib) : List (JField ProcessCount) := [
  field "exe" (fun s => s.Exe) (fun s x => { s with Exe := x }) stringCodec,
  field "count" (fun s => s.Count) (fun s x => { s with Count := x }) (intCodec lib)]

def ProcessCount.codec (lib : JsonLib) : Codec ProcessCount :=
  structCodec (ProcessCount.fields lib)

def UserProcess.fields (lib : JsonLib) : List (JField UserProcess) := [
  field "user" (fun s => s.User) (fun s x => { s with User := x }) stringCodec,
  field "processes" (fun s => s.Processes) (fun s x => { s with Processes := x }) (sliceCodec (ProcessCount.codec lib) default),
  field "topProcesses" (fun s => s.TopProcesses) (fun s x => { s with TopProcesses := x }) (sliceCodec (ProcessCount.codec lib) default)]

def UserProcess.codec (lib : JsonLib) : Codec UserProcess :=
  structCodec (UserProcess.fields lib)

def TopSource.fields (lib : JsonLib) : List (JField TopSource) := [
  field "source" (fun s => s.Source) (fun s x => { s with Source := x }) stringCodec,
  field "destination" (fun s => s.Destination) (fun s x => { s with Destination := x }) (anyCodec lib),
  field "isWan" (fun s => s.IsWan) (fun s x => { s with IsWan := x }) (anyCodec lib),
  field "count" (fun s => s.Count) (fun s x => { s with Count := x }) (intCodec lib)]

def TopSource.codec (lib : JsonLib) : Codec TopSource :=
  structCodec (TopSource.fields lib)

def UserSource.fields (lib : JsonLib) : List (JField UserSource) := [
  field "user" (fun s => s.User) (fun s x => { s with User := x }) stringCodec,
  field "sources" (fun s => s.Sources) (fun s x => { s with Sources := x }) (sliceCodec (anyCodec lib) GoAny.nil),
  field "topSources" (fun s => s.TopSources) (fun s x => { s with TopSources := x }) (sliceCodec (TopSource.codec lib) default)]

def UserSource.codec (lib : JsonLib) : Codec UserSource :=
  structCodec (UserSource.fields lib)

def DigestEntry.fields (lib : JsonLib) : List (JField DigestEntry) := [
  field "alertType" (fun s => s.AlertType) (fun s x => { s with AlertType := x }) stringCodec,
  field "indicator" (fun s => s.Indicator) (fun s x => { s with Indicator := x }) stringCodec,
  field "digest" (fun s => s.Digest) (fun s x => { s with Digest := x }) stringCodec,
  field "template" (fun s => s.Template) (fun s x => { s with Template := x }) stringCodec,
  fieldOmitEmpty "values" (fun s => s.Values) (fun s x => { s with Values := x })
    StrMap.isEmpty strMapCodec]

def DigestEntry.codec (lib : JsonLib) : Codec DigestEntry :=
  structCodec (DigestEntry.fields lib)

def AlertContext.fields (lib : JsonLib) : List (JField AlertContext) := [
  field "userAgents" (fun s => s.UserAgents) (fun s x => { s with UserAgents := x }) (sliceCodec (UserAgent.codec lib) default),
  field "userProcesses" (fun s => s.UserProcesses) (fun s x => { s with UserProcesses := x }) (sliceCodec (UserProcess.codec lib) default),
  field "userSources" (fun s => s.UserSources) (fun s x => { s with UserSources := x }) (sliceCodec (UserSource.codec lib) default),
  field "cloudtrailSources" (fun s => s.CloudtrailSources) (fun s x => { s with CloudtrailSources := x }) (anyCodec lib),
  field "cloudtrailTasks" (fun s => s.CloudtrailTasks) (fun s x => { s with CloudtrailTasks := x }) (anyCodec lib),
  field "cloudtrailAuthMethods" (fun s => s.CloudtrailAuthMethods) (fun s x => { s with CloudtrailAuthMethods := x }) (anyCodec lib),
  field "digests" (fun s => s.Digests) (fun s x => { s with Digests := x }) (sliceCodec (DigestEntry.codec lib) default)]

def AlertContext.codec (lib : JsonLib) : Codec AlertContext :=
  structCodec (AlertContext.fields lib)

def FullAlert.fields (lib : JsonLib) : List (JField FullAlert) := [
  field "alert_info" (fun s => s.Alert) (fun s x => { s with Alert := x }) (Alert.codec lib),
  field "alert_events" (fun s => s.AlertEvents) (fun s x => { s with AlertEvents := x }) (AlertEvents.codec lib),
  field "alert_context" (fun s => s.AlertContext) (fun s x => { s with AlertContext := x }) (AlertContext.codec lib)]

def FullAlert.codec (lib : JsonLib) : Codec FullAlert :=
  structCodec (FullAlert.fields lib)

def FullAlerts.fields (lib : JsonLib) : List (JField FullAlerts) := [
  field "alerts" (fun s => s.Alerts) (fun s x => { s with Alerts := x }) (sliceCodec (FullAlert.codec lib) default)]

def FullAlerts.codec (lib : JsonLib) : Codec FullAlerts :=
  structCodec (FullAlerts.fields lib)

/-- The call `json.Marshal(a)` on the level of JSON documents. -/
def marshalFullAlerts (lib : JsonLib) (a : FullAlerts) : JVal :=
  (FullAlerts.codec lib).enc a

mutual
/-- Nesting depth of a document: the number of arrays and objects open at
its deepest point. -/
def JVal.depth : JVal → Nat
  | .null => 0
  | .bool _ => 0
  | .num _ _ => 0
  | .str _ => 0
  | .arr xs => depthList xs + 1
  | .obj kvs => depthMembers kvs + 1
def depthList : List JVal → Nat
  | [] => 0
  | x :: xs => max x.depth (depthList xs)
def depthMembers : List (String × JVal) → Nat
  | [] => 0
  | (_, v) :: rest => max v.depth (depthMembers rest)
end

/-- The nesting limit of the decoder (`maxNestingDepth` of its scanner). -/
def maxNestingDepth : Nat := 10000

/-- The call `json.Unmarshal(data, &a)` for a fresh `var a FullAlerts`, on
the document `j` that `data` denotes: refused when nested too deep, decoded
into the zero value otherwise. -/
def unmarshalFullAlerts (lib : JsonLib) (j : JVal) : Except String FullAlerts :=
  if maxNestingDepth < j.depth then .error "json: exceeded max depth"
  else (FullAlerts.codec lib).dec j default

/-- The call `json.Unmarshal(data, &a)` on the bytes `data`, given the reader
`parse` of JSON texts (an error for a text that is not valid JSON). -/
def jsonUnmarshal (parse : String → Except String JVal) (lib : JsonLib) (data : String) :
    Except String FullAlerts :=
  match parse data with
  | .error e => .error e
  | .ok j => unmarshalFullAlerts lib j

/-- The text layer at the batch `a`: `json.Marshal` (the `marshal` of `Deps`,
which `forwardData` calls) returns a text, and reading that text gives the
document the struct tags prescribe for `a`. -/
def MarshalsAs (d : Deps) (parse : String → Except String JVal) (lib : JsonLib)
    (a : FullAlerts) : Prop :=
  ∃ text, d.marshal a = .ok text ∧ parse text = .ok (marshalFullAlerts lib a)

/-! ### Decoded form: decoder-produced dynamic types, maps as sorted entries -/

/-- The entries are sorted by key and the keys are distinct. -/
def SortedKeys {β : Type} (l : List (String × β)) : Prop :=
  l.Pairwise (fun a b => keyLt a.1 b.1 = true)

mutual
/-- The value is one the decoder produces: it is built from the six decoded
dynamic types only, and every map inside it is given by sorted entries. -/
def GoAny.Canonical : GoAny → Prop
  | .nil => True
  | .bool _ => True
  | .float64 _ => True
  | .string _ => True
  | .slice xs => canonicalList xs
  | .map kvs => SortedKeys kvs ∧ canonicalMembers kvs
  | .other _ => False
def canonicalList : List GoAny → Prop
  | [] => True
  | x :: xs => x.Canonical ∧ canonicalList xs
def canonicalMembers : List (String × GoAny) → Prop
  | [] => True
  | (_, v) :: rest => v.Canonical ∧ canonicalMembers rest
end

def StrMap.Canonical (m : StrMap) : Prop :=
  ∀ kvs, m = some kvs → SortedKeys kvs

def Alert.Canonical (a : Alert) : Prop :=
  a.Aggregates.Canonical

def Event.Canonical (e : Event) : Prop :=
  ∀ t ∈ e.Tags.elems, t.Canonical

def AlertEvents.Canonical (e : AlertEvents) : Prop :=
  ∀ ev ∈ e.Events.elems, ev.Canonical

def TopSource.Canonical (t : TopSource) : Prop :=
  t.Destination.Canonical ∧ t.IsWan.Canonical

def UserSource.Canonical (u : UserSource) : Prop :=
  (∀ x ∈ u.Sources.elems, x.Canonical) ∧ (∀ t ∈ u.TopSources.elems, t.Canonical)

def DigestEntry.Canonical (g : DigestEntry) : Prop :=
  g.Values.Canonical

def AlertContext.Canonical (c : AlertContext) : Prop :=
  (∀ u ∈ c.UserSources.elems, u.Canonical) ∧ c.CloudtrailSources.Canonical ∧
  c.CloudtrailTasks.Canonical ∧ c.CloudtrailAuthMethods.Canonical ∧
  (∀ g ∈ c.Digests.elems, g.Canonical)

def FullAlert.Canonical (f : FullAlert) : Prop :=
  f.Alert.Canonical ∧ f.AlertEvents.Canonical ∧ f.AlertContext.Canonical

def FullAlerts.Canonical (a : FullAlerts) : Prop :=
  ∀ f ∈ a.Alerts.elems, f.Canonical

/-! ### Digests whose `values` survive `omitempty` -/

/-- The `Values` map is nil or has an entry: not a non-nil empty map. -/
def DigestEntry.KeepsValues (g : DigestEntry) : Prop :=
  g.Values ≠ some []

def FullAlerts.KeepsValues (a : FullAlerts) : Prop :=
  ∀ f ∈ a.Alerts.elems, ∀ g ∈ f.AlertContext.Digests.elems, g.KeepsValues

/-! ### Sample values for the JSON statements -/

/-- The readings of the two number literals that occur in the samples, as a
table: `0` is the integer 0 and the float +0, `1` is the integer 1 and the
float 1.0 (bit pattern `0x3FF0000000000000`). -/
def sampleJsonLib : JsonLib where
  floatAsInt := fun f =>
    if f.val = 0 then some 0
    else if f.val = 4607182418800017408 then some 1
    else none
  intAsFloat := fun i =>
    if i = 0 then some ⟨0, by decide⟩
    else if i = 1 then some ⟨4607182418800017408, by decide⟩
    else none

/-- A context with one digest carrying the given `Values`. -/
def contextWithValues (m : StrMap) : AlertContext :=
  ⟨none, none, none, .nil, .nil, .nil, some [⟨"t", "i", "d", "tpl", m⟩]⟩

/-- A batch of one alert whose single digest carries the given `Values`. -/
def batchWithValues (m : StrMap) : FullAlerts :=
  ⟨some [⟨default, ⟨none⟩, contextWithValues m⟩]⟩

/-- An event that carries only the given tags. -/
def eventWithTags (tags : Slice GoAny) : Event :=
  { (default : Event) with Tags := tags }

/-- A batch exercising the loosely typed fields and both maps: aggregates
with two keys, a tag holding a map with a number and a slice, cloudtrail
data, and a digest with one substitution value. -/
def sampleBatch : FullAlerts :=
  ⟨some [
    ⟨{ (default : Alert) with ID := "a1", Aggregates := some [("host", "h1"), ("user", "root")] },
     ⟨some [eventWithTags (some [.map [("n", .float64 ⟨4607182418800017408, by decide⟩),
        ("xs", .slice [.nil, .bool true, .string "t"])]])]⟩,
     ⟨some [], none, some [⟨"root", some [.string "10.0.0.1"], some [⟨"s", .nil, .bool false, default⟩]⟩],
       .map [], .nil, .slice [],
       some [⟨"t", "i", "d", "tpl", some [("k", "v")]⟩, ⟨"t2", "i2", "d2", "tpl2", none⟩]⟩⟩]⟩

/-- The text `json.Marshal` writes for `sampleBatch`. -/
def sampleBatchText : String :=
  "\x7b\"alerts\":[\x7b\"alert_info\":\x7b\"id\":\"a1\",\"title\":\"\",\"dataSource\":\"\",\"createdA" ++
  "t\":\"\",\"isDismissed\":false,\"dismissedAt\":\"\",\"dismissReason\":\"\",\"dismissRe" ++
  "asonText\":\"\",\"dismissedBy\":\"\",\"severity\":0,\"agentId\":\"\",\"ruleId\":\"\",\"rul" ++
  "esetId\":\"\",\"aggregates\":\x7b\"host\":\"h1\",\"user\":\"root\"\x7d\x7d,\"alert_events\":\x7b\"ev" ++
  "ents\":[\x7b\"timestamp\":0,\"provider_metadata\":\x7b\"cloud_provider\":\"\",\"account_" ++
  "id\":\"\",\"availability_zone\":\"\"\x7d,\"network_metadata\":null,\"agent_metadata\":" ++
  "\x7b\"agent_id\":\"\",\"deployment_mode\":\"\",\"version\":\"\"\x7d,\"host_metadata\":\x7b\"kern" ++
  "el\":\"\",\"hostname\":\"\",\"image_id\":\"\",\"os_version\":\"\",\"instance_id\":\"\",\"ins" ++
  "tance_type\":\"\"\x7d,\"pod_name\":\"\",\"success\":false,\"path\":null,\"gid\":0,\"conta" ++
  "iner_image\":\"\",\"_id\":\"\",\"pod_uid\":\"\",\"eventClass\":\"\",\"container_id\":\"\",\"" ++
  "command\":\"\",\"parent_metadata\":\x7b\"exe\":\"\",\"pid\":0,\"timestamp\":0\x7d,\"auid\":0," ++
  "\"pid\":0,\"ts_event_type\":\"\",\"event_time\":0,\"event_type\":\"\",\"organization_" ++
  "id\":\"\",\"session\":0,\"exit\":\"\",\"uid\":0,\"cwd\":\"\",\"header\":\x7b\"id\":0,\"millisec" ++
  "onds\":0,\"sequence_id\":0,\"timestamp\":0\x7d,\"ppid\":0,\"args\":null,\"ingest_time" ++
  "\":0,\"tty\":\"\",\"syscall\":\"\",\"type\":\"\",\"event_id\":\"\",\"group\":null,\"user\":\"\"" ++
  ",\"agent_id\":\"\",\"exe\":\"\",\"time_id\":\"\",\"tags\":[\x7b\"n\":1,\"xs\":[null,true,\"t\"]" ++
  "\x7d],\"containerLabels\":\x7b\"io.cri-containerd.kind\":\"\",\"io.kubernetes.pod.nam" ++
  "e\":\"\",\"io.kubernetes.pod.uid\":\"\",\"io.kubernetes.pod.namespace\":\"\",\"io.ku" ++
  "bernetes.container.name\":\"\"\x7d\x7d]\x7d,\"alert_context\":\x7b\"userAgents\":[],\"userPr" ++
  "ocesses\":null,\"userSources\":[\x7b\"user\":\"root\",\"sources\":[\"10.0.0.1\"],\"topS" ++
  "ources\":[\x7b\"source\":\"s\",\"destination\":null,\"isWan\":false,\"count\":0\x7d]\x7d],\"c" ++
  "loudtrailSources\":\x7b\x7d,\"cloudtrailTasks\":null,\"cloudtrailAuthMethods\":[],\"" ++
  "digests\":[\x7b\"alertType\":\"t\",\"indicator\":\"i\",\"digest\":\"d\",\"template\":\"tpl\"" ++
  ",\"values\":\x7b\"k\":\"v\"\x7d\x7d,\x7b\"alertType\":\"t2\",\"indicator\":\"i2\",\"digest\":\"d2\",\"t" ++
  "emplate\":\"tpl2\"\x7d]\x7d\x7d]\x7d"

/-- The reader of JSON texts, as a table with the text of `sampleBatch`. -/
def sampleParse (text : String) : Except String JVal :=
  if text = sampleBatchText then .ok (marshalFullAlerts sampleJsonLib sampleBatch)
  else .error "invalid character"

/-- The sample dependencies with `json.Marshal` given as a table: the batch
whose document is that of `sampleBatch` gets `sampleBatchText`. -/
def sampleJsonDeps : Deps :=
  { sampleDeps 200 with
    marshal := fun a =>
      if (marshalFullAlerts sampleJsonLib a).same (marshalFullAlerts sampleJsonLib sampleBatch)
      then .ok sampleBatchText
      else .error "json: unsupported value" }

/-- The `float64` 1.0 (bit pattern `0x3FF0000000000000`). -/
def float64One : FiniteFloat64 := ⟨4607182418800017408, by decide⟩

/-- The number literal `1`: the integer 1, the float 1.0. -/
def literalOne : JVal := .num (some 1) (some float64One)

/-- A value of `n + 1` nested slices, the innermost empty. -/
def nestedSlices : Nat → GoAny
  | 0 => .slice []
  | n + 1 => .slice [nestedSlices n]

/-- A batch of one alert whose `CloudtrailSources` is `x`. -/
def batchWithCloudtrail (x : GoAny) : FullAlerts :=
  ⟨some [⟨default, ⟨none⟩, ⟨none, none, none, x, .nil, .nil, none⟩⟩]⟩

/-- A batch of one alert whose `CloudtrailSources` is `nestedSlices n`. -/
def deepBatch (n : Nat) : FullAlerts :=
  batchWithCloudtrail (nestedSlices n)

/-- The `Values` maps of all digests of a batch, in order. -/
def FullAlerts.digestValues (a : FullAlerts) : List StrMap :=
  (a.Alerts.elems.map (fun f => f.AlertContext.Digests.elems.map (fun g => g.Values))).flatten

/-! ## Basic facts about the handler -/

theorem receiveAlert_of_admitted (d : Deps) (r : Request) (ap : AlertProcessor)
    (a : AlertHookRaw) (h : Admitted d r ap) (hb : d.decodeHook r.body = .ok a) :
    receiveAlert d r =
      match (processAlerts d ap a).result with
      | .error err => httpError err 400 true (processAlerts d ap a).calls
      | .ok _ => ⟨200, "OK" ++ "\n", true, (processAlerts d ap a).calls⟩ := by
  obtain ⟨hm, ⟨apiKey, hk, hq⟩, hd, hu, hkey, ho⟩ := h
  have hne : (d.parseQuery r.rawQuery "api_key") ≠ [] := by
    intro h0
    rw [h0] at hq
    simp at hq
  cases ap with
  | mk cfg dst =>
    cases cfg with
    | mk u k o =>
      simp only at hd hu hkey ho
      simp [receiveAlert, hm, hk, hq, hne, hd, hu, hkey, ho, hb]

/-- C1. A POST request, `API_KEY` set: when the query has no `api_key` value
or its first value differs from `API_KEY` (whatever the later values), the
status is 401, the body is not decoded and no request is sent, for every
request body and every value of the other four variables. -/
theorem receiveAlert_unauthorized (d : Deps) (r : Request) (apiKey : String)
    (hm : r.method = "POST") (hk : d.lookupEnv "API_KEY" = some apiKey)
    (hq : d.parseQuery r.rawQuery "api_key" = [] ∨
      ∃ first later, d.parseQuery r.rawQuery "api_key" = first :: later ∧ first ≠ apiKey) :
    (receiveAlert d r).status = 401 ∧ (receiveAlert d r).calls = [] ∧
      (receiveAlert d r).bodyDecoded = false := by
  rcases hq with h0 | ⟨first, later, h1, hne⟩
  · simp [receiveAlert, hm, hk, h0, httpError]
  · simp [receiveAlert, hm, hk, h1, hne, httpError]

theorem receiveAlert_unauthorized_witness :
    (receiveAlert (sampleDeps 200) ⟨"POST", "api_key=wrong&api_key=secret", "\x7b\"Alerts\":[]\x7d"⟩).status = 401 ∧
    (receiveAlert (sampleDeps 200) ⟨"POST", "api_key=wrong&api_key=secret", "\x7b\"Alerts\":[]\x7d"⟩).calls = [] ∧
    (receiveAlert (sampleDeps 200) ⟨"POST", "api_key=wrong&api_key=secret", "\x7b\"Alerts\":[]\x7d"⟩).bodyDecoded = false :=
  receiveAlert_unauthorized (sampleDeps 200) ⟨"POST", "api_key=wrong&api_key=secret", "\x7b\"Alerts\":[]\x7d"⟩
    "secret" rfl rfl (Or.inr ⟨"wrong", ["secret"], rfl, by decide⟩)

/-- C2, as stated, fails: `DESTINATION_URL` is absent, yet a POST whose
`api_key` does not match `API_KEY` is answered 401, not 500. -/
theorem receiveAlert_missing_config_not_500 :
    sampleDepsNoDestination.lookupEnv "DESTINATION_URL" = none ∧
    (receiveAlert sampleDepsNoDestination
      ⟨"POST", "api_key=SECRET", "\x7b\"Alerts\":[]\x7d"⟩).status = 401 ∧
    (receiveAlert sampleDepsNoDestination
      ⟨"POST", "api_key=SECRET", "\x7b\"Alerts\":[]\x7d"⟩).status ≠ 500 := by
  decide

/-- C2, amended. A POST request with one of the five variables absent is
never decoded and sends no request; the status is 500 when `API_KEY` is the
absent one (for every query string) and when `API_KEY` is set and matched by
the first `api_key` value; it is 401 when `API_KEY` is set and the first
`api_key` value is missing or different. -/
theorem receiveAlert_missing_config (d : Deps) (r : Request) (hm : r.method = "POST")
    (hmiss : d.lookupEnv "API_KEY" = none ∨ d.lookupEnv "DESTINATION_URL" = none ∨
      d.lookupEnv "TS_USER" = none ∨ d.lookupEnv "TS_KEY" = none ∨
      d.lookupEnv "TS_ORG" = none) :
    (receiveAlert d r).bodyDecoded = false ∧ (receiveAlert d r).calls = [] ∧
    (d.lookupEnv "API_KEY" = none → (receiveAlert d r).status = 500) ∧
    (∀ apiKey, d.lookupEnv "API_KEY" = some apiKey →
      (d.parseQuery r.rawQuery "api_key").head? = some apiKey →
      (receiveAlert d r).status = 500) ∧
    (∀ apiKey, d.lookupEnv "API_KEY" = some apiKey →
      (d.parseQuery r.rawQuery "api_key").head? ≠ some apiKey →
      (receiveAlert d r).status = 401) := by
  cases hk : d.lookupEnv "API_KEY" with
  | none => simp [receiveAlert, hm, hk, httpError]
  | some apiKey =>
    by_cases hq : (d.parseQuery r.rawQuery "api_key").head? = some apiKey
    · have hne : (d.parseQuery r.rawQuery "api_key") ≠ [] := by
        intro h0
        rw [h0] at hq
        simp at hq
      simp only [hk] at hmiss
      cases hd : d.lookupEnv "DESTINATION_URL" with
      | none => simp [receiveAlert, hm, hk, hq, hne, hd, httpError]
      | some dst =>
        cases hu : d.lookupEnv "TS_USER" with
        | none => simp [receiveAlert, hm, hk, hq, hne, hd, hu, httpError]
        | some u =>
          cases hkey : d.lookupEnv "TS_KEY" with
          | none => simp [receiveAlert, hm, hk, hq, hne, hd, hu, hkey, httpError]
          | some k =>
            cases ho : d.lookupEnv "TS_ORG" with
            | none => simp [receiveAlert, hm, hk, hq, hne, hd, hu, hkey, ho, httpError]
            | some o => simp [hd, hu, hkey, ho] at hmiss
    · simp [receiveAlert, hm, hk, hq, httpError]

theorem receiveAlert_missing_config_witness :
    (receiveAlert sampleDepsNoDestination ⟨"POST", "api_key=secret", "\x7b\"Alerts\":[]\x7d"⟩).bodyDecoded = false ∧
    (receiveAlert sampleDepsNoDestination ⟨"POST", "api_key=secret", "\x7b\"Alerts\":[]\x7d"⟩).calls = [] ∧
    (receiveAlert sampleDepsNoDestination ⟨"POST", "api_key=secret", "\x7b\"Alerts\":[]\x7d"⟩).status = 500 :=
  have h := receiveAlert_missing_config sampleDepsNoDestination
    ⟨"POST", "api_key=secret", "\x7b\"Alerts\":[]\x7d"⟩ rfl (Or.inr (Or.inl rfl))
  ⟨h.1, h.2.1, h.2.2.2.1 "secret" rfl rfl⟩

/-- C3, as stated, fails: an admitted POST whose batch is processed without
error is answered 200, but the body written is `OK` followed by a newline,
not exactly `OK`. -/
theorem receiveAlert_ok_body_not_exact :
    Admitted (sampleDeps 200) ⟨"POST", "api_key=secret", "\x7b\"Alerts\":[\x7b\"Id\":\"a1\"\x7d]\x7d"⟩
      sampleProcessor ∧
    (processAlerts (sampleDeps 200) sampleProcessor ⟨some [hookEntry "a1"]⟩).result = .ok () ∧
    (receiveAlert (sampleDeps 200)
      ⟨"POST", "api_key=secret", "\x7b\"Alerts\":[\x7b\"Id\":\"a1\"\x7d]\x7d"⟩).status = 200 ∧
    (receiveAlert (sampleDeps 200)
      ⟨"POST", "api_key=secret", "\x7b\"Alerts\":[\x7b\"Id\":\"a1\"\x7d]\x7d"⟩).body ≠ "OK" :=
  ⟨⟨rfl, ⟨"secret", rfl, rfl⟩, rfl, rfl, rfl, rfl⟩, by decide, by decide, by decide⟩

/-- C3, amended. An admitted POST whose body decodes and whose batch is
processed without error is answered with status 200 and the body `OK`
followed by one newline (what `fmt.Fprintln` writes). -/
theorem receiveAlert_ok (d : Deps) (r : Request) (ap : AlertProcessor) (a : AlertHookRaw)
    (h : Admitted d r ap) (hb : d.decodeHook r.body = .ok a)
    (hp : (processAlerts d ap a).result = .ok ()) :
    (receiveAlert d r).status = 200 ∧ (receiveAlert d r).body = "OK\n" := by
  rw [receiveAlert_of_admitted d r ap a h hb, hp]
  exact ⟨rfl, rfl⟩

theorem receiveAlert_ok_witness :
    (receiveAlert (sampleDeps 200)
      ⟨"POST", "api_key=secret", "\x7b\"Alerts\":[\x7b\"Id\":\"a1\"\x7d]\x7d"⟩).status = 200 ∧
    (receiveAlert (sampleDeps 200)
      ⟨"POST", "api_key=secret", "\x7b\"Alerts\":[\x7b\"Id\":\"a1\"\x7d]\x7d"⟩).body = "OK\n" :=
  receiveAlert_ok (sampleDeps 200) ⟨"POST", "api_key=secret", "\x7b\"Alerts\":[\x7b\"Id\":\"a1\"\x7d]\x7d"⟩
    sampleProcessor ⟨some [hookEntry "a1"]⟩
    ⟨rfl, ⟨"secret", rfl, rfl⟩, rfl, rfl, rfl, rfl⟩ rfl (by decide)

/-! ## Call discipline of the fetch operations -/

theorem fetchAlert_keys (d : Deps) (ap : AlertProcessor) (id : String) :
    ((fetchAlert d ap id).calls.map callKey = [("GET", alertEndpoint id)]) ∨
    ((fetchAlert d ap id).calls = [] ∧ isErr (fetchAlert d ap id).result = true) := by
  unfold fetchAlert
  cases d.tsRequest ap.config "GET" (alertEndpoint id) with
  | error e => simp [isErr]
  | ok hdr =>
    left
    simp only
    cases d.clientDo ⟨"GET", alertEndpoint id, hdr, ""⟩ with
    | error e => simp [callKey]
    | ok resp =>
      simp only
      split
      · simp [callKey]
      · cases d.decodeAlert resp.body <;> simp [callKey]

theorem fetchEvents_keys (d : Deps) (ap : AlertProcessor) (id : String) :
    ((fetchEvents d ap id).calls.map callKey = [("GET", eventsEndpoint id)]) ∨
    ((fetchEvents d ap id).calls = [] ∧ isErr (fetchEvents d ap id).result = true) := by
  unfold fetchEvents
  cases d.tsRequest ap.config "GET" (eventsEndpoint id) with
  | error e => simp [isErr]
  | ok hdr =>
    left
    simp only
    cases d.clientDo ⟨"GET", eventsEndpoint id, hdr, ""⟩ with
    | error e => simp [callKey]
    | ok resp =>
      simp only
      split
      · simp [callKey]
      · cases d.decodeEvents resp.body <;> simp [callKey]

theorem fetchContext_keys (d : Deps) (ap : AlertProcessor) (id : String) :
    ((fetchContext d ap id).calls.map callKey = [("GET", contextEndpoint id)]) ∨
    ((fetchContext d ap id).calls = [] ∧ isErr (fetchContext d ap id).result = true) := by
  unfold fetchContext
  cases d.tsRequest ap.config "GET" (contextEndpoint id) with
  | error e => simp [isErr]
  | ok hdr =>
    left
    simp only
    cases d.clientDo ⟨"GET", contextEndpoint id, hdr, ""⟩ with
    | error e => simp [callKey]
    | ok resp =>
      simp only
      split
      · simp [callKey]
      · cases d.decodeContext resp.body <;> simp [callKey]

/-- A fetch whose answer has a status other than 200 or an undecodable body
fails. -/
theorem fetchAlert_bad (d : Deps) (ap : AlertProcessor) (id : String) (resp : HttpResponse)
    (h : Answers d ap (alertEndpoint id) resp)
    (hbad : resp.statusCode ≠ 200 ∨ isErr (d.decodeAlert resp.body) = true) :
    isErr (fetchAlert d ap id).result = true := by
  obtain ⟨hdr, h1, h2⟩ := h
  unfold fetchAlert
  simp only [h1, h2]
  split
  · rfl
  · rcases hbad with hb | hb
    · contradiction
    · cases hdec : d.decodeAlert resp.body with
      | error e => rfl
      | ok a => rw [hdec] at hb; simp [isErr] at hb

theorem fetchEvents_bad (d : Deps) (ap : AlertProcessor) (id : String) (resp : HttpResponse)
    (h : Answers d ap (eventsEndpoint id) resp)
    (hbad : resp.statusCode ≠ 200 ∨ isErr (d.decodeEvents resp.body) = true) :
    isErr (fetchEvents d ap id).result = true := by
  obtain ⟨hdr, h1, h2⟩ := h
  unfold fetchEvents
  simp only [h1, h2]
  split
  · rfl
  · rcases hbad with hb | hb
    · contradiction
    · cases hdec : d.decodeEvents resp.body with
      | error e => rfl
      | ok a => rw [hdec] at hb; simp [isErr] at hb

theorem fetchContext_bad (d : Deps) (ap : AlertProcessor) (id : String) (resp : HttpResponse)
    (h : Answers d ap (contextEndpoint id) resp)
    (hbad : resp.statusCode ≠ 200 ∨ isErr (d.decodeContext resp.body) = true) :
    isErr (fetchContext d ap id).result = true := by
  obtain ⟨hdr, h1, h2⟩ := h
  unfold fetchContext
  simp only [h1, h2]
  split
  · rfl
  · rcases hbad with hb | hb
    · contradiction
    · cases hdec : d.decodeContext resp.body with
      | error e => rfl
      | ok a => rw [hdec] at hb; simp [isErr] at hb

/-- The result of `processAlert` in terms of the three fetches. -/
theorem processAlert_ok_iff (d : Deps) (ap : AlertProcessor) (id : String) (fa : FullAlert) :
    (processAlert d ap id).result = .ok fa ↔
      (fetchAlert d ap id).result = .ok fa.Alert ∧
      (fetchEvents d ap id).result = .ok fa.AlertEvents ∧
      (fetchContext d ap id).result = .ok fa.AlertContext := by
  cases fa with
  | mk a e c =>
    cases h1 : (fetchAlert d ap id).result with
    | error e1 => simp [processAlert, h1]
    | ok a1 =>
      cases h2 : (fetchEvents d ap id).result with
      | error e2 => simp [processAlert, h1, h2]
      | ok a2 =>
        cases h3 : (fetchContext d ap id).result with
        | error e3 => simp [processAlert, h1, h2, h3]
        | ok a3 => simp [processAlert, h1, h2, h3]

theorem processAlert_err_of_fetch (d : Deps) (ap : AlertProcessor) (id : String)
    (h : isErr (fetchAlert d ap id).result = true ∨ isErr (fetchEvents d ap id).result = true ∨
      isErr (fetchContext d ap id).result = true) :
    isErr (processAlert d ap id).result = true := by
  cases h1 : (fetchAlert d ap id).result with
  | error e1 => simp [processAlert, h1, isErr]
  | ok a1 =>
    cases h2 : (fetchEvents d ap id).result with
    | error e2 => simp [processAlert, h1, h2, isErr]
    | ok a2 =>
      cases h3 : (fetchContext d ap id).result with
      | error e3 => simp [processAlert, h1, h2, h3, isErr]
      | ok a3 => simp [h1, h2, h3, isErr] at h

/-- The calls of `processAlert` are a prefix of the three planned calls and
all of them when it succeeds. -/
theorem processAlert_keys (d : Deps) (ap : AlertProcessor) (id : String) :
    (processAlert d ap id).calls.map callKey <+: fetchKeys id ∧
    (isErr (processAlert d ap id).result = false →
      (processAlert d ap id).calls.map callKey = fetchKeys id) := by
  rcases fetchAlert_keys d ap id with ha | ⟨ha, hae⟩
  · cases h1 : (fetchAlert d ap id).result with
    | error e1 => simp [processAlert, h1, ha, fetchKeys, isErr, List.prefix_iff_eq_append]
    | ok a1 =>
      rcases fetchEvents_keys d ap id with he | ⟨he, hee⟩
      · cases h2 : (fetchEvents d ap id).result with
        | error e2 =>
          simp [processAlert, h1, h2, ha, he, fetchKeys, isErr, List.prefix_iff_eq_append]
        | ok a2 =>
          rcases fetchContext_keys d ap id with hc | ⟨hc, hce⟩
          · cases h3 : (fetchContext d ap id).result <;>
              simp [processAlert, h1, h2, h3, ha, he, hc, fetchKeys, isErr]
          · cases h3 : (fetchContext d ap id).result with
            | error e3 =>
              simp [processAlert, h1, h2, h3, ha, he, hc, fetchKeys, isErr,
                List.prefix_iff_eq_append]
            | ok a3 => simp [h3, isErr] at hce
      · cases h2 : (fetchEvents d ap id).result with
        | error e2 =>
          simp [processAlert, h1, h2, ha, he, fetchKeys, isErr, List.prefix_iff_eq_append]
        | ok a2 => simp [h2, isErr] at hee
  · cases h1 : (fetchAlert d ap id).result with
    | error e1 => simp [processAlert, h1, ha, isErr]
    | ok a1 => simp [h1, isErr] at hae

theorem processAlert_calls_get (d : Deps) (ap : AlertProcessor) (id : String) :
    ∀ c ∈ (processAlert d ap id).calls, c.method = "GET" := by
  intro c hc
  have hmem : callKey c ∈ fetchKeys id :=
    (processAlert_keys d ap id).1.subset (List.mem_map_of_mem callKey hc)
  simp only [fetchKeys, List.mem_cons, List.mem_singleton, List.not_mem_nil, or_false] at hmem
  rcases hmem with h | h | h <;>
    exact congrArg Prod.fst h

/-! ## Call discipline of the forward and of the batch loop -/

/-- The forward is not attempted, or exactly the forward request is sent. -/
theorem forwardData_calls (d : Deps) (ap : AlertProcessor) (a : FullAlerts) :
    ((forwardData d ap a).calls = [] ∧ isErr (forwardData d ap a).result = true) ∨
    (forwardData d ap a).calls = [forwardRequest d ap a] := by
  cases h : d.newRequest "POST" ap.destinationUrl with
  | some e => simp [forwardData, h, isErr]
  | none =>
    right
    unfold forwardData forwardRequest
    simp only [h]
    split
    · rfl
    · split <;> rfl

theorem forwardData_calls_of_built (d : Deps) (ap : AlertProcessor) (a : FullAlerts)
    (h : d.newRequest "POST" ap.destinationUrl = none) :
    (forwardData d ap a).calls = [forwardRequest d ap a] := by
  unfold forwardData forwardRequest
  simp only [h]
  split
  · rfl
  · split <;> rfl

/-- The accumulator after the loop has appended `g v` for every `v`. -/
theorem foldl_append_acc (g : AlertHookData → FullAlert) (rest : List AlertHookData)
    (acc : FullAlerts) (hne : rest ≠ []) :
    rest.foldl (fun (b : FullAlerts) v => ⟨b.Alerts.append (g v)⟩) acc =
      ⟨some (acc.Alerts.elems ++ rest.map g)⟩ := by
  induction rest generalizing acc with
  | nil => exact absurd rfl hne
  | cons v tl ih =>
    cases tl with
    | nil => simp [Slice.append]
    | cons w tl2 =>
      rw [List.foldl_cons, ih _ (by simp)]
      simp [Slice.append, Slice.elems]

/-- When every entry has an identifier and is processed successfully, the
loop makes the calls of every entry in order and then forwards the
accumulated batch. -/
theorem processLoop_all_ok (d : Deps) (ap : AlertProcessor) (g : AlertHookData → FullAlert)
    (rest : List AlertHookData) (acc : FullAlerts)
    (hid : ∀ v ∈ rest, v.Id ≠ "")
    (hok : ∀ v ∈ rest, (processAlert d ap v.Id).result = .ok (g v)) :
    (processLoop d ap rest acc).result =
      (forwardData d ap (rest.foldl (fun (b : FullAlerts) v => ⟨b.Alerts.append (g v)⟩) acc)).result ∧
    (processLoop d ap rest acc).calls =
      (rest.map (fun v => (processAlert d ap v.Id).calls)).flatten ++
      (forwardData d ap (rest.foldl (fun (b : FullAlerts) v => ⟨b.Alerts.append (g v)⟩) acc)).calls := by
  induction rest generalizing acc with
  | nil => simp [processLoop]
  | cons v tl ih =>
    have hv := hid v (List.mem_cons_self v tl)
    have hvok := hok v (List.mem_cons_self v tl)
    have ih2 := ih ⟨acc.Alerts.append (g v)⟩
      (fun u hu => hid u (List.mem_cons_of_mem v hu))
      (fun u hu => hok u (List.mem_cons_of_mem v hu))
    simp only [processLoop, hv, if_false, hvok, List.foldl_cons, List.map_cons,
      List.flatten_cons, List.append_assoc]
    exact ⟨ih2.1, by rw [ih2.2]⟩

/-- An entry with an empty identifier or whose processing fails makes the
loop fail, and the loop then sends upstream GET requests only. -/
theorem processLoop_err (d : Deps) (ap : AlertProcessor) (rest : List AlertHookData)
    (acc : FullAlerts)
    (h : ∃ v ∈ rest, v.Id = "" ∨ isErr (processAlert d ap v.Id).result = true) :
    isErr (processLoop d ap rest acc).result = true ∧
    ∀ c ∈ (processLoop d ap rest acc).calls, c.method = "GET" := by
  induction rest generalizing acc with
  | nil => simp at h
  | cons v tl ih =>
    by_cases hv : v.Id = ""
    · simp [processLoop, hv, isErr]
    · cases hr : (processAlert d ap v.Id).result with
      | error e =>
        simp only [processLoop, hv, if_false, hr]
        exact ⟨rfl, processAlert_calls_get d ap v.Id⟩
      | ok fa =>
        have htl : ∃ u ∈ tl, u.Id = "" ∨ isErr (processAlert d ap u.Id).result = true := by
          obtain ⟨u, hu, hbad⟩ := h
          rcases List.mem_cons.mp hu with rfl | hu
          · rcases hbad with hbad | hbad
            · exact absurd hbad hv
            · rw [hr] at hbad
              simp [isErr] at hbad
          · exact ⟨u, hu, hbad⟩
        have ih2 := ih ⟨acc.Alerts.append fa⟩ htl
        simp only [processLoop, hv, if_false, hr]
        refine ⟨ih2.1, ?_⟩
        intro c hc
        rcases List.mem_append.mp hc with hc | hc
        · exact processAlert_calls_get d ap v.Id c hc
        · exact ih2.2 c hc

/-! ## The handler on top of the processor -/

theorem receiveAlert_of_failure (d : Deps) (r : Request) (ap : AlertProcessor)
    (a : AlertHookRaw) (h : Admitted d r ap) (hb : d.decodeHook r.body = .ok a)
    (hp : isErr (processAlerts d ap a).result = true) :
    (receiveAlert d r).status = 400 ∧
    (receiveAlert d r).calls = (processAlerts d ap a).calls := by
  rw [receiveAlert_of_admitted d r ap a h hb]
  cases hr : (processAlerts d ap a).result with
  | error e => exact ⟨rfl, rfl⟩
  | ok u => rw [hr] at hp; simp [isErr] at hp

theorem processAlerts_cons (d : Deps) (ap : AlertProcessor) (v : AlertHookData)
    (tl : List AlertHookData) :
    processAlerts d ap ⟨some (v :: tl)⟩ = processLoop d ap (v :: tl) ⟨none⟩ := by
  simp [processAlerts, Slice.len, Slice.elems]

theorem processAlerts_of_mem (d : Deps) (ap : AlertProcessor) (alerts : List AlertHookData)
    (v : AlertHookData) (hv : v ∈ alerts) :
    processAlerts d ap ⟨some alerts⟩ = processLoop d ap alerts ⟨none⟩ := by
  cases alerts with
  | nil => simp at hv
  | cons w tl => exact processAlerts_cons d ap w tl

theorem get_ne_post (c : HttpRequest) (h : c.method = "GET") : c.method ≠ "POST" := by
  rw [h]
  decide

/-! ## Claims about the batch -/

/-- C4, as stated, fails: one entry with an identifier, all three fetches
succeed, yet no POST is made because the request for the destination URL
cannot be built. -/
theorem processAlerts_no_post_when_url_rejected :
    [hookEntry "a1"] ≠ [] ∧
    (∀ v ∈ [hookEntry "a1"], v.Id ≠ "") ∧
    (∀ v ∈ [hookEntry "a1"],
      isErr (fetchAlert (sampleDeps 200) badUrlProcessor v.Id).result = false ∧
      isErr (fetchEvents (sampleDeps 200) badUrlProcessor v.Id).result = false ∧
      isErr (fetchContext (sampleDeps 200) badUrlProcessor v.Id).result = false) ∧
    posts (processAlerts (sampleDeps 200) badUrlProcessor ⟨some [hookEntry "a1"]⟩).calls = [] := by
  decide

/-- C4, amended. A non-empty list of N entries with non-empty identifiers,
all three fetches succeeding for every identifier, and the POST request for
the destination URL can be built: the calls are those of every entry in
order followed by one forward request, that request is the only POST, and
its payload has exactly N entries, the i-th being the FullAlert assembled
from the three fetch results of the i-th identifier. -/
theorem processAlerts_forwards_in_order (d : Deps) (ap : AlertProcessor)
    (alerts : List AlertHookData) (fa : String → Alert) (fe : String → AlertEvents)
    (fc : String → AlertContext)
    (hne : alerts ≠ [])
    (hid : ∀ v ∈ alerts, v.Id ≠ "")
    (hfetch : ∀ v ∈ alerts,
      (fetchAlert d ap v.Id).result = .ok (fa v.Id) ∧
      (fetchEvents d ap v.Id).result = .ok (fe v.Id) ∧
      (fetchContext d ap v.Id).result = .ok (fc v.Id))
    (hnew : d.newRequest "POST" ap.destinationUrl = none) :
    (processAlerts d ap ⟨some alerts⟩).calls =
      (alerts.map (fun v => (processAlert d ap v.Id).calls)).flatten ++
        [forwardRequest d ap (assembledBatch fa fe fc alerts)] ∧
    posts (processAlerts d ap ⟨some alerts⟩).calls =
      [forwardRequest d ap (assembledBatch fa fe fc alerts)] ∧
    (assembledBatch fa fe fc alerts).Alerts.len = alerts.length ∧
    ∀ i (hi : i < alerts.length),
      (assembledBatch fa fe fc alerts).Alerts.elems[i]? =
        some ⟨fa (alerts.get ⟨i, hi⟩).Id, fe (alerts.get ⟨i, hi⟩).Id, fc (alerts.get ⟨i, hi⟩).Id⟩ := by
  have hok : ∀ v ∈ alerts, (processAlert d ap v.Id).result =
      .ok ((fun v => (⟨fa v.Id, fe v.Id, fc v.Id⟩ : FullAlert)) v) := by
    intro v hv
    exact (processAlert_ok_iff d ap v.Id _).mpr (hfetch v hv)
  obtain ⟨w, hw⟩ := List.exists_mem_of_ne_nil alerts hne
  have hloop := processLoop_all_ok d ap (fun v => (⟨fa v.Id, fe v.Id, fc v.Id⟩ : FullAlert))
    alerts ⟨none⟩ hid hok
  rw [foldl_append_acc _ alerts ⟨none⟩ hne] at hloop
  have hacc : (⟨some ((⟨none⟩ : FullAlerts).Alerts.elems ++
      alerts.map (fun v => (⟨fa v.Id, fe v.Id, fc v.Id⟩ : FullAlert)))⟩ : FullAlerts) =
      assembledBatch fa fe fc alerts := by
    simp [assembledBatch, Slice.elems]
  rw [hacc, forwardData_calls_of_built d ap _ hnew] at hloop
  have hcalls : (processAlerts d ap ⟨some alerts⟩).calls =
      (alerts.map (fun v => (processAlert d ap v.Id).calls)).flatten ++
        [forwardRequest d ap (assembledBatch fa fe fc alerts)] := by
    rw [processAlerts_of_mem d ap alerts w hw]
    exact hloop.2
  refine ⟨hcalls, ?_, ?_, ?_⟩
  · rw [hcalls, posts, List.filter_append]
    have hget : ∀ c ∈ (alerts.map (fun v => (processAlert d ap v.Id).calls)).flatten,
        c.method = "GET" := by
      intro c hc
      obtain ⟨l, hl, hcl⟩ := List.mem_flatten.mp hc
      obtain ⟨v, _, rfl⟩ := List.mem_map.mp hl
      exact processAlert_calls_get d ap v.Id c hcl
    have hnil : List.filter (fun c => decide (c.method = "POST"))
        (alerts.map (fun v => (processAlert d ap v.Id).calls)).flatten = [] := by
      rw [List.filter_eq_nil_iff]
      intro c hc
      simpa using get_ne_post c (hget c hc)
    rw [hnil]
    simp [forwardRequest]
  · simp [assembledBatch, Slice.len]
  · intro i hi
    simp [assembledBatch, Slice.elems, List.getElem?_map, List.getElem?_eq_getElem hi]

theorem processAlerts_forwards_in_order_witness :
    posts (processAlerts (sampleDeps 200) sampleProcessor
      ⟨some [hookEntry "a1", hookEntry "a2", hookEntry "a1"]⟩).calls =
      [forwardRequest (sampleDeps 200) sampleProcessor
        (assembledBatch (fun _ => default) (fun _ => default) (fun _ => default)
          [hookEntry "a1", hookEntry "a2", hookEntry "a1"])] :=
  (processAlerts_forwards_in_order (sampleDeps 200) sampleProcessor
    [hookEntry "a1", hookEntry "a2", hookEntry "a1"]
    (fun _ => default) (fun _ => default) (fun _ => default)
    (by decide) (by decide)
    (by
      intro v hv
      simp only [List.mem_cons, List.mem_singleton, List.not_mem_nil, or_false] at hv
      rcases hv with rfl | rfl | rfl <;> exact ⟨rfl, rfl, rfl⟩)
    rfl).2.1

/-- C5. If for some entry one of its three upstream fetches is answered with
a status other than 200 or with a body that does not decode, the batch
returns an error, no POST is sent, and an admitted request carrying that
batch is answered 400 without any POST, whatever the other entries are. -/
theorem processAlerts_fetch_failure (d : Deps) (ap : AlertProcessor)
    (alerts : List AlertHookData)
    (h : ∃ v ∈ alerts, ∃ resp,
      (Answers d ap (alertEndpoint v.Id) resp ∧
        (resp.statusCode ≠ 200 ∨ isErr (d.decodeAlert resp.body) = true)) ∨
      (Answers d ap (eventsEndpoint v.Id) resp ∧
        (resp.statusCode ≠ 200 ∨ isErr (d.decodeEvents resp.body) = true)) ∨
      (Answers d ap (contextEndpoint v.Id) resp ∧
        (resp.statusCode ≠ 200 ∨ isErr (d.decodeContext resp.body) = true))) :
    isErr (processAlerts d ap ⟨some alerts⟩).result = true ∧
    (∀ c ∈ (processAlerts d ap ⟨some alerts⟩).calls, c.method ≠ "POST") ∧
    ∀ r, Admitted d r ap → d.decodeHook r.body = .ok ⟨some alerts⟩ →
      (receiveAlert d r).status = 400 ∧ ∀ c ∈ (receiveAlert d r).calls, c.method ≠ "POST" := by
  obtain ⟨v, hv, resp, hbad⟩ := h
  have hfail : isErr (processAlert d ap v.Id).result = true := by
    apply processAlert_err_of_fetch
    rcases hbad with ⟨ha, hb⟩ | ⟨ha, hb⟩ | ⟨ha, hb⟩
    · exact Or.inl (fetchAlert_bad d ap v.Id resp ha hb)
    · exact Or.inr (Or.inl (fetchEvents_bad d ap v.Id resp ha hb))
    · exact Or.inr (Or.inr (fetchContext_bad d ap v.Id resp ha hb))
  have hloop := processLoop_err d ap alerts ⟨none⟩ ⟨v, hv, Or.inr hfail⟩
  rw [← processAlerts_of_mem d ap alerts v hv] at hloop
  refine ⟨hloop.1, fun c hc => get_ne_post c (hloop.2 c hc), ?_⟩
  intro r hadm hdec
  have hr := receiveAlert_of_failure d r ap _ hadm hdec hloop.1
  refine ⟨hr.1, ?_⟩
  rw [hr.2]
  exact fun c hc => get_ne_post c (hloop.2 c hc)

theorem processAlerts_fetch_failure_witness :
    isErr (processAlerts (sampleDeps 200) sampleProcessor
      ⟨some [hookEntry "a1", hookEntry "gone"]⟩).result = true ∧
    (∀ c ∈ (processAlerts (sampleDeps 200) sampleProcessor
      ⟨some [hookEntry "a1", hookEntry "gone"]⟩).calls, c.method ≠ "POST") ∧
    (receiveAlert (sampleDeps 200) ⟨"POST", "api_key=secret",
      "\x7b\"Alerts\":[\x7b\"Id\":\"a1\"\x7d,\x7b\"Id\":\"gone\"\x7d]\x7d"⟩).status = 400 :=
  have h := processAlerts_fetch_failure (sampleDeps 200) sampleProcessor
    [hookEntry "a1", hookEntry "gone"]
    ⟨hookEntry "gone", by decide, ⟨404, "not found"⟩,
      Or.inl ⟨⟨[("Authorization", "user")], rfl, rfl⟩, Or.inl (by decide)⟩⟩
  ⟨h.1, h.2.1,
    (h.2.2 ⟨"POST", "api_key=secret",
      "\x7b\"Alerts\":[\x7b\"Id\":\"a1\"\x7d,\x7b\"Id\":\"gone\"\x7d]\x7d"⟩
      ⟨rfl, ⟨"secret", rfl, rfl⟩, rfl, rfl, rfl, rfl⟩ rfl).1⟩

/-- C6. A list with an entry whose identifier is the empty string, at any
position: the batch returns an error, no POST is sent, and an admitted
request carrying it is answered 400 without any POST, whatever the upstream
answers for the other entries. -/
theorem processAlerts_empty_id (d : Deps) (ap : AlertProcessor)
    (alerts : List AlertHookData) (h : ∃ v ∈ alerts, v.Id = "") :
    isErr (processAlerts d ap ⟨some alerts⟩).result = true ∧
    (∀ c ∈ (processAlerts d ap ⟨some alerts⟩).calls, c.method ≠ "POST") ∧
    ∀ r, Admitted d r ap → d.decodeHook r.body = .ok ⟨some alerts⟩ →
      (receiveAlert d r).status = 400 ∧ ∀ c ∈ (receiveAlert d r).calls, c.method ≠ "POST" := by
  obtain ⟨v, hv, hid⟩ := h
  have hloop := processLoop_err d ap alerts ⟨none⟩ ⟨v, hv, Or.inl hid⟩
  rw [← processAlerts_of_mem d ap alerts v hv] at hloop
  refine ⟨hloop.1, fun c hc => get_ne_post c (hloop.2 c hc), ?_⟩
  intro r hadm hdec
  have hr := receiveAlert_of_failure d r ap _ hadm hdec hloop.1
  refine ⟨hr.1, ?_⟩
  rw [hr.2]
  exact fun c hc => get_ne_post c (hloop.2 c hc)

theorem processAlerts_empty_id_witness :
    isErr (processAlerts (sampleDeps 200) sampleProcessor
      ⟨some [hookEntry "a1", hookEntry ""]⟩).result = true ∧
    (∀ c ∈ (processAlerts (sampleDeps 200) sampleProcessor
      ⟨some [hookEntry "a1", hookEntry ""]⟩).calls, c.method ≠ "POST") ∧
    (receiveAlert (sampleDeps 200) ⟨"POST", "api_key=secret",
      "\x7b\"Alerts\":[\x7b\"Id\":\"a1\"\x7d,\x7b\"Id\":\"\"\x7d]\x7d"⟩).status = 400 :=
  have h := processAlerts_empty_id (sampleDeps 200) sampleProcessor
    [hookEntry "a1", hookEntry ""] ⟨hookEntry "", by decide, rfl⟩
  ⟨h.1, h.2.1,
    (h.2.2 ⟨"POST", "api_key=secret",
      "\x7b\"Alerts\":[\x7b\"Id\":\"a1\"\x7d,\x7b\"Id\":\"\"\x7d]\x7d"⟩
      ⟨rfl, ⟨"secret", rfl, rfl⟩, rfl, rfl, rfl, rfl⟩ rfl).1⟩

/-- C7. When the forward request is built and the destination answers with
status `s` and body `b`, `forwardData` returns an error exactly when
`s ≥ 300`; the error message is the fixed text followed by the decimal `s`,
a separator and `b`, so it contains both; for every `s < 300` the result is
success. -/
theorem forwardData_status (d : Deps) (ap : AlertProcessor) (a : FullAlerts)
    (s : Int) (b : String)
    (hreq : d.newRequest "POST" ap.destinationUrl = none)
    (hresp : d.clientDo (forwardRequest d ap a) = .ok ⟨s, b⟩) :
    (isErr (forwardData d ap a).result = true ↔ 300 ≤ s) ∧
    (300 ≤ s → (forwardData d ap a).result =
      .error ("error code from forward destination: " ++ toString s ++ " - " ++ b)) ∧
    (300 ≤ s → ∃ msg, (forwardData d ap a).result = .error msg ∧
      (toString s).data <:+: msg.data ∧ b.data <:+: msg.data) ∧
    (s < 300 → (forwardData d ap a).result = .ok ()) := by
  have hres : (forwardData d ap a).result =
      if 300 ≤ s then
        .error ("error code from forward destination: " ++ toString s ++ " - " ++ b)
      else .ok () := by
    unfold forwardRequest at hresp
    unfold forwardData
    simp only [hreq, hresp, ge_iff_le]
    split <;> rfl
  by_cases hs : 300 ≤ s
  · rw [hres, if_pos hs]
    refine ⟨by simp [isErr, hs], fun _ => rfl, fun _ => ⟨_, rfl, ?_, ?_⟩, fun hlt => ?_⟩
    · simp only [String.data_append]
      exact ⟨"error code from forward destination: ".data, " - ".data ++ b.data, by simp⟩
    · simp only [String.data_append]
      exact ⟨"error code from forward destination: ".data ++ (toString s).data ++ " - ".data,
        [], by simp⟩
    · omega
  · rw [hres, if_neg hs]
    exact ⟨by simp [isErr, hs], fun h => absurd h hs, fun h => absurd h hs, fun _ => rfl⟩

theorem forwardData_status_witness :
    (isErr (forwardData (sampleDeps 299) sampleProcessor ⟨some []⟩).result = true ↔
      (300 : Int) ≤ 299) ∧
    ((299 : Int) < 300 → (forwardData (sampleDeps 299) sampleProcessor ⟨some []⟩).result = .ok ()) :=
  have h := forwardData_status (sampleDeps 299) sampleProcessor ⟨some []⟩ 299 "received" rfl rfl
  ⟨h.1, h.2.2.2⟩

/-- C8. An inbound payload whose alert list is empty: `processAlerts`
returns success and hands no request to the client (no fetch, no POST), and
an admitted request carrying it is answered 200. -/
theorem processAlerts_empty (d : Deps) (ap : AlertProcessor) (a : AlertHookRaw)
    (h : a.Alerts = some []) :
    (processAlerts d ap a).result = .ok () ∧ (processAlerts d ap a).calls = [] ∧
    ∀ r, Admitted d r ap → d.decodeHook r.body = .ok a →
      (receiveAlert d r).status = 200 ∧ (receiveAlert d r).calls = [] := by
  have hp : processAlerts d ap a = ⟨.ok (), []⟩ := by
    simp [processAlerts, h, Slice.len]
  refine ⟨by rw [hp], by rw [hp], ?_⟩
  intro r hadm hdec
  rw [receiveAlert_of_admitted d r ap a hadm hdec, hp]
  exact ⟨rfl, rfl⟩

theorem processAlerts_empty_witness :
    (processAlerts (sampleDeps 200) sampleProcessor ⟨some []⟩).result = .ok () ∧
    (processAlerts (sampleDeps 200) sampleProcessor ⟨some []⟩).calls = [] ∧
    (receiveAlert (sampleDeps 200) ⟨"POST", "api_key=secret", "\x7b\"Alerts\":[]\x7d"⟩).status = 200 ∧
    (receiveAlert (sampleDeps 200) ⟨"POST", "api_key=secret", "\x7b\"Alerts\":[]\x7d"⟩).calls = [] :=
  have h := processAlerts_empty (sampleDeps 200) sampleProcessor ⟨some []⟩ rfl
  ⟨h.1, h.2.1,
    h.2.2 ⟨"POST", "api_key=secret", "\x7b\"Alerts\":[]\x7d"⟩
      ⟨rfl, ⟨"secret", rfl, rfl⟩, rfl, rfl, rfl, rfl⟩ rfl⟩

/-! ## Order of the network calls -/

theorem forwardData_keys (d : Deps) (ap : AlertProcessor) (a : FullAlerts) :
    (forwardData d ap a).calls.map callKey <+: [("POST", ap.destinationUrl)] := by
  rcases forwardData_calls d ap a with ⟨h, _⟩ | h
  · rw [h]
    exact List.nil_prefix
  · rw [h]
    exact List.prefix_rfl

theorem processLoop_prefix (d : Deps) (ap : AlertProcessor) (rest : List AlertHookData)
    (acc : FullAlerts) :
    (processLoop d ap rest acc).calls.map callKey <+:
      plannedCalls (rest.map (fun v => v.Id)) ap.destinationUrl := by
  induction rest generalizing acc with
  | nil => simpa [processLoop, plannedCalls] using forwardData_keys d ap acc
  | cons v tl ih =>
    by_cases hv : v.Id = ""
    · simp [processLoop, hv]
    · have hk := processAlert_keys d ap v.Id
      cases hr : (processAlert d ap v.Id).result with
      | error e =>
        simp only [processLoop, hv, if_false, hr]
        refine hk.1.trans ?_
        simp [plannedCalls]
      | ok fa =>
        have heq := hk.2 (by rw [hr]; rfl)
        simp only [processLoop, hv, if_false, hr, List.map_append, heq]
        have := ih ⟨acc.Alerts.append fa⟩
        simpa [plannedCalls, List.prefix_append_right_inj] using this

/-- The calls of the loop are upstream GETs followed by at most the forward. -/
theorem processLoop_shape (d : Deps) (ap : AlertProcessor) (rest : List AlertHookData)
    (acc : FullAlerts) :
    ∃ g f, (processLoop d ap rest acc).calls = g ++ f ∧ (∀ c ∈ g, c.method = "GET") ∧
      f.length ≤ 1 := by
  induction rest generalizing acc with
  | nil =>
    refine ⟨[], (forwardData d ap acc).calls, by simp [processLoop], by simp, ?_⟩
    rcases forwardData_calls d ap acc with ⟨h, _⟩ | h <;> simp [h]
  | cons v tl ih =>
    by_cases hv : v.Id = ""
    · exact ⟨[], [], by simp [processLoop, hv], by simp, by simp⟩
    · cases hr : (processAlert d ap v.Id).result with
      | error e =>
        exact ⟨(processAlert d ap v.Id).calls, [], by simp [processLoop, hv, hr],
          processAlert_calls_get d ap v.Id, by simp⟩
      | ok fa =>
        obtain ⟨g, f, hgf, hg, hf⟩ := ih ⟨acc.Alerts.append fa⟩
        refine ⟨(processAlert d ap v.Id).calls ++ g, f, by simp [processLoop, hv, hr, hgf], ?_, hf⟩
        intro c hc
        rcases List.mem_append.mp hc with hc | hc
        · exact processAlert_calls_get d ap v.Id c hc
        · exact hg c hc

theorem post_is_last (calls g f : List HttpRequest) (hgf : calls = g ++ f)
    (hg : ∀ c ∈ g, c.method = "GET") (hf : f.length ≤ 1)
    (pre : List HttpRequest) (c : HttpRequest) (post : List HttpRequest)
    (hsplit : calls = pre ++ c :: post) (hc : c.method = "POST") : post = [] := by
  rw [hgf] at hsplit
  rcases List.append_eq_append_iff.mp hsplit with ⟨m, hpre, hf2⟩ | ⟨m, hg2, hcp⟩
  · rw [hf2] at hf
    cases post with
    | nil => rfl
    | cons x xs =>
      simp only [List.length_append, List.length_cons] at hf
      omega
  · cases m with
    | nil =>
      simp only [List.nil_append] at hcp
      rw [← hcp] at hf
      cases post with
      | nil => rfl
      | cons x xs => simp at hf
    | cons x xs =>
      simp only [List.cons_append, List.cons.injEq] at hcp
      have hx : x ∈ g := by rw [hg2]; simp
      have := hg x hx
      rw [← hcp.1, hc] at this
      exact absurd this (by decide)

/-- Entries processed successfully contribute their calls and hand the loop
on to the rest of the list. -/
theorem processLoop_split (d : Deps) (ap : AlertProcessor) (pre rest : List AlertHookData)
    (acc : FullAlerts)
    (hpre : ∀ u ∈ pre, u.Id ≠ "" ∧ isErr (processAlert d ap u.Id).result = false) :
    ∃ acc2, (processLoop d ap (pre ++ rest) acc).result = (processLoop d ap rest acc2).result ∧
      (processLoop d ap (pre ++ rest) acc).calls =
        (pre.map (fun u => (processAlert d ap u.Id).calls)).flatten ++
          (processLoop d ap rest acc2).calls := by
  induction pre generalizing acc with
  | nil => exact ⟨acc, by simp⟩
  | cons u tl ih =>
    have hu := hpre u (List.mem_cons_self u tl)
    cases hr : (processAlert d ap u.Id).result with
    | error e =>
      have := hu.2
      rw [hr] at this
      simp [isErr] at this
    | ok fa =>
      obtain ⟨acc2, h1, h2⟩ := ih ⟨acc.Alerts.append fa⟩
        (fun w hw => hpre w (List.mem_cons_of_mem u hw))
      refine ⟨acc2, ?_, ?_⟩
      · simp only [List.cons_append, processLoop, hu.1, if_false, hr]
        exact h1
      · simp only [List.cons_append, processLoop, hu.1, if_false, hr, List.map_cons,
          List.flatten_cons, List.append_assoc]
        exact congrArg (fun l => (processAlert d ap u.Id).calls ++ l) h2

theorem processLoop_before_empty (d : Deps) (ap : AlertProcessor)
    (pre : List AlertHookData) (v : AlertHookData) (post : List AlertHookData)
    (acc : FullAlerts) (hv : v.Id = "") :
    (processLoop d ap (pre ++ v :: post) acc).calls.map callKey <+:
      (pre.map (fun u => fetchKeys u.Id)).flatten := by
  induction pre generalizing acc with
  | nil => simp [processLoop, hv]
  | cons u tl ih =>
    by_cases hu : u.Id = ""
    · simp [processLoop, hu]
    · have hk := processAlert_keys d ap u.Id
      cases hr : (processAlert d ap u.Id).result with
      | error e =>
        simp only [List.cons_append, processLoop, hu, if_false, hr, List.map_cons,
          List.flatten_cons]
        exact hk.1.trans (List.prefix_append _ _)
      | ok fa =>
        have heq := hk.2 (by rw [hr]; rfl)
        simp only [List.cons_append, processLoop, hu, if_false, hr, List.map_append, heq,
          List.map_cons, List.flatten_cons]
        exact (List.prefix_append_right_inj _).mpr (ih ⟨acc.Alerts.append fa⟩)

theorem flatten_keys_of_ok (d : Deps) (ap : AlertProcessor) (pre : List AlertHookData)
    (hpre : ∀ u ∈ pre, isErr (processAlert d ap u.Id).result = false) :
    ((pre.map (fun u => (processAlert d ap u.Id).calls)).flatten).map callKey =
      (pre.map (fun u => fetchKeys u.Id)).flatten := by
  induction pre with
  | nil => rfl
  | cons u tl ih =>
    simp only [List.map_cons, List.flatten_cons, List.map_append]
    rw [(processAlert_keys d ap u.Id).2 (hpre u (List.mem_cons_self u tl)),
      ih (fun w hw => hpre w (List.mem_cons_of_mem u hw))]

/-- An empty identifier later in the list changes nothing before it: the
calls are the upstream calls the loop makes on the entries before it. -/
theorem processLoop_empty_id_calls (d : Deps) (ap : AlertProcessor)
    (pre : List AlertHookData) (v : AlertHookData) (post : List AlertHookData)
    (acc : FullAlerts) (hv : v.Id = "") :
    (processLoop d ap (pre ++ v :: post) acc).calls = gets (processLoop d ap pre acc).calls := by
  induction pre generalizing acc with
  | nil =>
    rcases forwardData_calls d ap acc with ⟨h, _⟩ | h
    · simp [processLoop, hv, h, gets]
    · simp [processLoop, hv, h, gets, forwardRequest]
  | cons u tl ih =>
    have hget : gets (processAlert d ap u.Id).calls = (processAlert d ap u.Id).calls := by
      unfold gets
      rw [List.filter_eq_self]
      intro c hc
      simpa using processAlert_calls_get d ap u.Id c hc
    by_cases hu : u.Id = ""
    · simp [processLoop, hu, gets]
    · cases hr : (processAlert d ap u.Id).result with
      | error e =>
        simp only [List.cons_append, processLoop, hu, if_false, hr]
        exact hget.symm
      | ok fa =>
        simp only [List.cons_append, processLoop, hu, if_false, hr]
        have hih := ih ⟨acc.Alerts.append fa⟩
        unfold gets at hget hih ⊢
        rw [List.filter_append, hget]
        exact congrArg (fun l => (processAlert d ap u.Id).calls ++ l) hih

/-- C10. The calls of `processAlerts`, by method and URL, are a prefix of
alert, events, context for every identifier in input order followed by the
forward; a POST, when made, is the last call; within one entry no fetch
follows the first failing fetch and across entries nothing follows the
first failing entry; no call is made for an entry at or after the first
empty identifier, while the fetches for the entries before it are made as
if the list ended there (all of them when those entries succeed). -/
theorem processAlerts_call_order (d : Deps) (ap : AlertProcessor) (a : AlertHookRaw) :
    ((processAlerts d ap a).calls.map callKey <+:
      plannedCalls (a.Alerts.elems.map (fun v => v.Id)) ap.destinationUrl) ∧
    (∀ pre c post, (processAlerts d ap a).calls = pre ++ c :: post → c.method = "POST" →
      post = []) ∧
    (∀ id, (isErr (fetchAlert d ap id).result = true →
        (processAlert d ap id).calls = (fetchAlert d ap id).calls) ∧
      (isErr (fetchAlert d ap id).result = false → isErr (fetchEvents d ap id).result = true →
        (processAlert d ap id).calls = (fetchAlert d ap id).calls ++ (fetchEvents d ap id).calls)) ∧
    (∀ pre v post, a.Alerts = some (pre ++ v :: post) →
      (∀ u ∈ pre, u.Id ≠ "" ∧ isErr (processAlert d ap u.Id).result = false) →
      v.Id ≠ "" → isErr (processAlert d ap v.Id).result = true →
      (processAlerts d ap a).calls =
        (pre.map (fun u => (processAlert d ap u.Id).calls)).flatten ++
          (processAlert d ap v.Id).calls) ∧
    (∀ pre v post, a.Alerts = some (pre ++ v :: post) → v.Id = "" →
      ((processAlerts d ap a).calls.map callKey <+:
        (pre.map (fun u => fetchKeys u.Id)).flatten) ∧
      (processAlerts d ap a).calls = gets (processAlerts d ap ⟨some pre⟩).calls ∧
      ((∀ u ∈ pre, u.Id ≠ "" ∧ isErr (processAlert d ap u.Id).result = false) →
        (processAlerts d ap a).calls.map callKey =
          (pre.map (fun u => fetchKeys u.Id)).flatten)) := by
  have hloop : ∀ l, a.Alerts = some l → l ≠ [] →
      processAlerts d ap a = processLoop d ap l ⟨none⟩ := by
    intro l hl hne
    cases l with
    | nil => exact absurd rfl hne
    | cons w tl =>
      cases a with
      | mk al =>
        simp only at hl
        subst hl
        exact processAlerts_cons d ap w tl
  refine ⟨?_, ?_, ?_, ?_, ?_⟩
  · by_cases h0 : a.Alerts.len = 0
    · simp [processAlerts, h0]
    · simp only [processAlerts, h0, if_false]
      exact processLoop_prefix d ap _ _
  · intro pre c post hsplit hc
    by_cases h0 : a.Alerts.len = 0
    · simp [processAlerts, h0] at hsplit
    · simp only [processAlerts, h0, if_false] at hsplit
      obtain ⟨g, f, hgf, hg, hf⟩ := processLoop_shape d ap a.Alerts.elems ⟨none⟩
      exact post_is_last _ g f hgf hg hf pre c post hsplit hc
  · intro id
    constructor
    · intro h1
      cases hr : (fetchAlert d ap id).result with
      | error e => simp [processAlert, hr]
      | ok x => rw [hr] at h1; simp [isErr] at h1
    · intro h1 h2
      cases hr : (fetchAlert d ap id).result with
      | error e => rw [hr] at h1; simp [isErr] at h1
      | ok x =>
        cases hr2 : (fetchEvents d ap id).result with
        | error e => simp [processAlert, hr, hr2]
        | ok y => rw [hr2] at h2; simp [isErr] at h2
  · intro pre v post hl hpre hv hfail
    rw [hloop _ hl (by simp)]
    obtain ⟨acc2, _, h2⟩ := processLoop_split d ap pre (v :: post) ⟨none⟩ hpre
    rw [h2]
    cases hr : (processAlert d ap v.Id).result with
    | error e => simp [processLoop, hv, hr]
    | ok x => rw [hr] at hfail; simp [isErr] at hfail
  · intro pre v post hl hv
    rw [hloop _ hl (by simp)]
    refine ⟨processLoop_before_empty d ap pre v post ⟨none⟩ hv, ?_, ?_⟩
    · rw [processLoop_empty_id_calls d ap pre v post ⟨none⟩ hv]
      cases pre with
      | nil =>
        rcases forwardData_calls d ap ⟨none⟩ with ⟨h, _⟩ | h
        · simp [processLoop, processAlerts, Slice.len, h, gets]
        · simp [processLoop, processAlerts, Slice.len, h, gets, forwardRequest]
      | cons u tl => rw [processAlerts_cons]
    intro hpre
    obtain ⟨acc2, _, h2⟩ := processLoop_split d ap pre (v :: post) ⟨none⟩ hpre
    rw [h2]
    simp only [processLoop, hv, if_true, List.append_nil]
    exact flatten_keys_of_ok d ap pre (fun u hu => (hpre u hu).2)

theorem processAlerts_call_order_witness :
    ((processAlerts (sampleDeps 200) sampleProcessor
        ⟨some [hookEntry "a1", hookEntry "gone", hookEntry "a3"]⟩).calls.map callKey <+:
      plannedCalls ["a1", "gone", "a3"] "https://siem.example/hook") ∧
    (processAlerts (sampleDeps 200) sampleProcessor
        ⟨some [hookEntry "a1", hookEntry "gone", hookEntry "a3"]⟩).calls.map callKey =
      [("GET", "https://api.threatstack.com/v2/alerts/a1"),
       ("GET", "https://api.threatstack.com/v2/alerts/a1/events"),
       ("GET", "https://api.threatstack.com/v2/alerts/a1/context"),
       ("GET", "https://api.threatstack.com/v2/alerts/gone")] :=
  ⟨(processAlerts_call_order (sampleDeps 200) sampleProcessor
      ⟨some [hookEntry "a1", hookEntry "gone", hookEntry "a3"]⟩).1, by decide⟩

/-! ## Round trip of the JSON encoding -/

theorem stringCodec_rt (s cur : String) : stringCodec.dec (stringCodec.enc s) cur = .ok s := rfl

theorem boolCodec_rt (b cur : Bool) : boolCodec.dec (boolCodec.enc b) cur = .ok b := rfl

theorem intCodec_rt (lib : JsonLib) (i cur : GoInt) :
    (intCodec lib).dec ((intCodec lib).enc i) cur = .ok i := by
  simp [intCodec, intOfLiteral, i.property]

theorem ltChars_irrefl (a : List Char) : ltChars a a = false := by
  induction a with
  | nil => rfl
  | cons x xs ih => simp [ltChars, ih]

theorem ltChars_asymm (a b : List Char) (h : ltChars a b = true) : ltChars b a = false := by
  induction a generalizing b with
  | nil =>
    cases b with
    | nil => rfl
    | cons y ys => rfl
  | cons x xs ih =>
    cases b with
    | nil => simp [ltChars] at h
    | cons y ys =>
      simp only [ltChars] at h ⊢
      by_cases h1 : x.toNat < y.toNat
      · have h2 : ¬ y.toNat < x.toNat := by omega
        have h3 : ¬ y.toNat = x.toNat := by omega
        simp [h2, h3]
      · by_cases h2 : x.toNat = y.toNat
        · simp only [h1, h2, if_false, if_true] at h
          have h3 : ¬ y.toNat < x.toNat := by omega
          simp [h3, h2, ih ys (by simpa using h)]
        · simp [h1, h2] at h

theorem keyLt_ne (a b : String) (h : keyLt a b = true) : b ≠ a := by
  intro hab
  subst hab
  simp [keyLt, ltChars_irrefl] at h

theorem insertKey_last {β : Type} (k : String) (v : β) (m : List (String × β))
    (h : ∀ p ∈ m, keyLt p.1 k = true) : insertKey k v m = m ++ [(k, v)] := by
  induction m with
  | nil => rfl
  | cons p rest ih =>
    obtain ⟨k2, v2⟩ := p
    have hp : keyLt k2 k = true := h (k2, v2) (List.mem_cons_self _ _)
    have h1 : keyLt k k2 = false := ltChars_asymm _ _ hp
    have h2 : k ≠ k2 := keyLt_ne _ _ hp
    simp [insertKey, h1, h2, ih (fun q hq => h q (List.mem_cons_of_mem _ hq))]

theorem decStrMembers_sorted (kvs m : List (String × String))
    (hs : SortedKeys kvs) (hm : ∀ p ∈ m, ∀ q ∈ kvs, keyLt p.1 q.1 = true) :
    decStrMembers (kvs.map (fun kv => (kv.1, JVal.str kv.2))) m = .ok (m ++ kvs) := by
  induction kvs generalizing m with
  | nil => simp [decStrMembers]
  | cons q rest ih =>
    obtain ⟨k, v⟩ := q
    have hs2 := List.pairwise_cons.mp hs
    have hins : insertKey k v m = m ++ [(k, v)] :=
      insertKey_last k v m (fun p hp => hm p hp (k, v) (List.mem_cons_self _ _))
    simp only [List.map_cons, decStrMembers, stringCodec, hins]
    rw [ih (m ++ [(k, v)]) hs2.2]
    · simp
    · intro p hp q hq
      rcases List.mem_append.mp hp with hp | hp
      · exact hm p hp q (List.mem_cons_of_mem _ hq)
      · simp only [List.mem_singleton] at hp
        subst hp
        exact hs2.1 q hq

theorem strMapCodec_rt (m : StrMap) (hm : m.Canonical) :
    strMapCodec.dec (strMapCodec.enc m) none = .ok m := by
  cases m with
  | none => rfl
  | some kvs =>
    have := decStrMembers_sorted kvs [] (hm kvs rfl) (by simp)
    simp [strMapCodec, this, Except.map]

/-- Elements whose decoding does not depend on the element decoded into
come back whatever the slice held before. -/
theorem decElems_rt {α : Type} (c : Codec α) (zero : α) (xs cur : List α)
    (h : ∀ x ∈ xs, ∀ start, c.dec (c.enc x) start = .ok x) :
    decElems c zero (xs.map c.enc) cur = .ok xs := by
  induction xs generalizing cur with
  | nil => rfl
  | cons x rest ih =>
    simp [decElems, h x (List.mem_cons_self _ _),
      ih cur.tail (fun y hy => h y (List.mem_cons_of_mem _ hy))]

/-- Elements decoded into a slice that held nothing start from `zero`. -/
theorem decElems_rt_fresh {α : Type} (c : Codec α) (zero : α) (xs : List α)
    (h : ∀ x ∈ xs, c.dec (c.enc x) zero = .ok x) :
    decElems c zero (xs.map c.enc) [] = .ok xs := by
  induction xs with
  | nil => rfl
  | cons x rest ih =>
    simp [decElems, h x (List.mem_cons_self _ _),
      ih (fun y hy => h y (List.mem_cons_of_mem _ hy))]

theorem sliceCodec_rt {α : Type} (c : Codec α) (zero : α) (s cur : Slice α)
    (h : ∀ x ∈ s.elems, ∀ start, c.dec (c.enc x) start = .ok x) :
    (sliceCodec c zero).dec ((sliceCodec c zero).enc s) cur = .ok s := by
  cases s with
  | none => rfl
  | some xs =>
    have := decElems_rt c zero xs cur.elems h
    simp [sliceCodec, this, Except.map]

theorem sliceCodec_rt_fresh {α : Type} (c : Codec α) (zero : α) (s : Slice α)
    (h : ∀ x ∈ s.elems, c.dec (c.enc x) zero = .ok x) :
    (sliceCodec c zero).dec ((sliceCodec c zero).enc s) none = .ok s := by
  cases s with
  | none => rfl
  | some xs =>
    have := decElems_rt_fresh c zero xs h
    simp [sliceCodec, this, Except.map, Slice.elems]

theorem stringSlice_rt (s cur : Slice String) :
    (sliceCodec stringCodec "").dec ((sliceCodec stringCodec "").enc s) cur = .ok s :=
  sliceCodec_rt stringCodec "" s cur (fun x _ start => stringCodec_rt x start)

mutual
theorem decAny_rt (lib : JsonLib) : ∀ (a : GoAny), a.Canonical → decAny (encAny lib a) = .ok a
  | .nil, _ => rfl
  | .bool _, _ => rfl
  | .float64 _, _ => rfl
  | .string _, _ => rfl
  | .other _, h => by simp [GoAny.Canonical] at h
  | .slice xs, h => by
    have := decAnyList_rt lib xs (by simpa [GoAny.Canonical] using h)
    simp [encAny, decAny, this]
  | .map kvs, h => by
    have h2 : SortedKeys kvs ∧ canonicalMembers kvs := by simpa [GoAny.Canonical] using h
    have := decAnyMembers_rt lib kvs [] h2.2 h2.1 (by simp)
    simp [encAny, decAny, this]
theorem decAnyList_rt (lib : JsonLib) : ∀ (xs : List GoAny), canonicalList xs →
    decAnyList (encAnyList lib xs) = .ok xs
  | [], _ => rfl
  | x :: rest, h => by
    have h2 : x.Canonical ∧ canonicalList rest := by simpa [canonicalList] using h
    simp [encAnyList, decAnyList, decAny_rt lib x h2.1, decAnyList_rt lib rest h2.2]
theorem decAnyMembers_rt (lib : JsonLib) : ∀ (kvs m : List (String × GoAny)),
    canonicalMembers kvs → SortedKeys kvs →
    (∀ p ∈ m, ∀ q ∈ kvs, keyLt p.1 q.1 = true) →
    decAnyMembers (encAnyMembers lib kvs) m = .ok (m ++ kvs)
  | [], m, _, _, _ => by simp [encAnyMembers, decAnyMembers]
  | (k, v) :: rest, m, hc, hs, hm => by
    have hc2 : v.Canonical ∧ canonicalMembers rest := by simpa [canonicalMembers] using hc
    have hs2 := List.pairwise_cons.mp hs
    have hins : insertKey k v m = m ++ [(k, v)] :=
      insertKey_last k v m (fun p hp => hm p hp (k, v) (List.mem_cons_self _ _))
    have hrest := decAnyMembers_rt lib rest (m ++ [(k, v)]) hc2.2 hs2.2 (by
      intro p hp q hq
      rcases List.mem_append.mp hp with hp | hp
      · exact hm p hp q (List.mem_cons_of_mem _ hq)
      · simp only [List.mem_singleton] at hp
        subst hp
        exact hs2.1 q hq)
    simp [encAnyMembers, decAnyMembers, decAny_rt lib v hc2.1, hins, hrest]
end

theorem anyCodec_rt (lib : JsonLib) (a cur : GoAny) (h : a.Canonical) :
    (anyCodec lib).dec ((anyCodec lib).enc a) cur = .ok a :=
  decAny_rt lib a h

theorem anySlice_rt (lib : JsonLib) (s cur : Slice GoAny) (h : ∀ x ∈ s.elems, x.Canonical) :
    (sliceCodec (anyCodec lib) GoAny.nil).dec ((sliceCodec (anyCodec lib) GoAny.nil).enc s) cur =
      .ok s :=
  sliceCodec_rt (anyCodec lib) GoAny.nil s cur (fun x hx start => anyCodec_rt lib x start (h x hx))

theorem providerMetadata_rt (lib : JsonLib) (s cur : ProviderMetadata) :
    (ProviderMetadata.codec lib).dec ((ProviderMetadata.codec lib).enc s) cur = .ok s := by
  simp [ProviderMetadata.codec, ProviderMetadata.fields, structCodec, field, decMembers, findField, Except.map,
    stringCodec_rt, boolCodec_rt, intCodec_rt, stringSlice_rt]

theorem networkMetadata_rt (lib : JsonLib) (s cur : NetworkMetadata) :
    (NetworkMetadata.codec lib).dec ((NetworkMetadata.codec lib).enc s) cur = .ok s := by
  simp [NetworkMetadata.codec, NetworkMetadata.fields, structCodec, field, decMembers, findField, Except.map,
    stringCodec_rt, boolCodec_rt, intCodec_rt, stringSlice_rt]

theorem agentMetadata_rt (lib : JsonLib) (s cur : AgentMetadata) :
    (AgentMetadata.codec lib).dec ((AgentMetadata.codec lib).enc s) cur = .ok s := by
  simp [AgentMetadata.codec, AgentMetadata.fields, structCodec, field, decMembers, findField, Except.map,
    stringCodec_rt, boolCodec_rt, intCodec_rt, stringSlice_rt]

theorem hostMetadata_rt (lib : JsonLib) (s cur : HostMetadata) :
    (HostMetadata.codec lib).dec ((HostMetadata.codec lib).enc s) cur = .ok s := by
  simp [HostMetadata.codec, HostMetadata.fields, structCodec, field, decMembers, findField, Except.map,
    stringCodec_rt, boolCodec_rt, intCodec_rt, stringSlice_rt]

theorem parentMetadata_rt (lib : JsonLib) (s cur : ParentMetadata) :
    (ParentMetadata.codec lib).dec ((ParentMetadata.codec lib).enc s) cur = .ok s := by
  simp [ParentMetadata.codec, ParentMetadata.fields, structCodec, field, decMembers, findField, Except.map,
    stringCodec_rt, boolCodec_rt, intCodec_rt, stringSlice_rt]

theorem header_rt (lib : JsonLib) (s cur : Header) :
    (Header.codec lib).dec ((Header.codec lib).enc s) cur = .ok s := by
  simp [Header.codec, Header.fields, structCodec, field, decMembers, findField, Except.map,
    stringCodec_rt, boolCodec_rt, intCodec_rt, stringSlice_rt]

theorem containerLabels_rt (lib : JsonLib) (s cur : ContainerLabels) :
    (ContainerLabels.codec lib).dec ((ContainerLabels.codec lib).enc s) cur = .ok s := by
  simp [ContainerLabels.codec, ContainerLabels.fields, structCodec, field, decMembers, findField, Except.map,
    stringCodec_rt, boolCodec_rt, intCodec_rt, stringSlice_rt]

theorem agentCount_rt (lib : JsonLib) (s cur : AgentCount) :
    (AgentCount.codec lib).dec ((AgentCount.codec lib).enc s) cur = .ok s := by
  simp [AgentCount.codec, AgentCount.fields, structCodec, field, decMembers, findField, Except.map,
    stringCodec_rt, boolCodec_rt, intCodec_rt, stringSlice_rt]

theorem processCount_rt (lib : JsonLib) (s cur : ProcessCount) :
    (ProcessCount.codec lib).dec ((ProcessCount.codec lib).enc s) cur = .ok s := by
  simp [ProcessCount.codec, ProcessCount.fields, structCodec, field, decMembers, findField, Except.map,
    stringCodec_rt, boolCodec_rt, intCodec_rt, stringSlice_rt]

theorem networkMetadataSlice_rt (lib : JsonLib) (s cur : Slice NetworkMetadata) :
    (sliceCodec (NetworkMetadata.codec lib) default).dec ((sliceCodec (NetworkMetadata.codec lib) default).enc s) cur =
      .ok s :=
  sliceCodec_rt (NetworkMetadata.codec lib) default s cur (fun x _ start => networkMetadata_rt lib x start)

theorem agentCountSlice_rt (lib : JsonLib) (s cur : Slice AgentCount) :
    (sliceCodec (AgentCount.codec lib) default).dec ((sliceCodec (AgentCount.codec lib) default).enc s) cur =
      .ok s :=
  sliceCodec_rt (AgentCount.codec lib) default s cur (fun x _ start => agentCount_rt lib x start)

theorem processCountSlice_rt (lib : JsonLib) (s cur : Slice ProcessCount) :
    (sliceCodec (ProcessCount.codec lib) default).dec ((sliceCodec (ProcessCount.codec lib) default).enc s) cur =
      .ok s :=
  sliceCodec_rt (ProcessCount.codec lib) default s cur (fun x _ start => processCount_rt lib x start)

theorem userAgent_rt (lib : JsonLib) (s cur : UserAgent) :
    (UserAgent.codec lib).dec ((UserAgent.codec lib).enc s) cur = .ok s := by
  simp [UserAgent.codec, UserAgent.fields, structCodec, field, decMembers, findField, Except.map,
    stringCodec_rt, boolCodec_rt, intCodec_rt, stringSlice_rt, agentCountSlice_rt]

theorem userAgentSlice_rt (lib : JsonLib) (s cur : Slice UserAgent) :
    (sliceCodec (UserAgent.codec lib) default).dec ((sliceCodec (UserAgent.codec lib) default).enc s) cur =
      .ok s :=
  sliceCodec_rt (UserAgent.codec lib) default s cur (fun x _ start => userAgent_rt lib x start)

theorem userProcess_rt (lib : JsonLib) (s cur : UserProcess) :
    (UserProcess.codec lib).dec ((UserProcess.codec lib).enc s) cur = .ok s := by
  simp [UserProcess.codec, UserProcess.fields, structCodec, field, decMembers, findField, Except.map,
    stringCodec_rt, boolCodec_rt, intCodec_rt, stringSlice_rt, processCountSlice_rt]

theorem userProcessSlice_rt (lib : JsonLib) (s cur : Slice UserProcess) :
    (sliceCodec (UserProcess.codec lib) default).dec ((sliceCodec (UserProcess.codec lib) default).enc s) cur =
      .ok s :=
  sliceCodec_rt (UserProcess.codec lib) default s cur (fun x _ start => userProcess_rt lib x start)

theorem event_rt (lib : JsonLib) (s cur : Event) (h : s.Canonical) :
    (Event.codec lib).dec ((Event.codec lib).enc s) cur = .ok s := by
  have htags := fun c => anySlice_rt lib s.Tags c h
  simp [Event.codec, Event.fields, structCodec, field, decMembers, findField, Except.map,
    stringCodec_rt, boolCodec_rt, intCodec_rt, stringSlice_rt,
    providerMetadata_rt, networkMetadataSlice_rt, agentMetadata_rt, hostMetadata_rt,
    parentMetadata_rt, header_rt, containerLabels_rt, htags]

theorem alertEvents_rt (lib : JsonLib) (s cur : AlertEvents) (h : s.Canonical) :
    (AlertEvents.codec lib).dec ((AlertEvents.codec lib).enc s) cur = .ok s := by
  have hev := fun c => sliceCodec_rt (Event.codec lib) default s.Events c
    (fun x hx start => event_rt lib x start (h x hx))
  simp [AlertEvents.codec, AlertEvents.fields, structCodec, field, decMembers, findField,
    Except.map, hev]

theorem topSource_rt (lib : JsonLib) (s cur : TopSource) (h : s.Canonical) :
    (TopSource.codec lib).dec ((TopSource.codec lib).enc s) cur = .ok s := by
  have hd := fun c => anyCodec_rt lib s.Destination c h.1
  have hw := fun c => anyCodec_rt lib s.IsWan c h.2
  simp [TopSource.codec, TopSource.fields, structCodec, field, decMembers, findField,
    Except.map, stringCodec_rt, intCodec_rt, hd, hw]

theorem userSource_rt (lib : JsonLib) (s cur : UserSource) (h : s.Canonical) :
    (UserSource.codec lib).dec ((UserSource.codec lib).enc s) cur = .ok s := by
  have hs := fun c => anySlice_rt lib s.Sources c h.1
  have ht := fun c => sliceCodec_rt (TopSource.codec lib) default s.TopSources c
    (fun x hx start => topSource_rt lib x start (h.2 x hx))
  simp [UserSource.codec, UserSource.fields, structCodec, field, decMembers, findField,
    Except.map, stringCodec_rt, hs, ht]

/-- A digest decoded into a fresh element comes back unchanged unless its
`Values` map is non-nil and empty. -/
theorem digestEntry_rt (lib : JsonLib) (s cur : DigestEntry) (h : s.Canonical)
    (hk : s.KeepsValues) (hcur : cur.Values = none) :
    (DigestEntry.codec lib).dec ((DigestEntry.codec lib).enc s) cur = .ok s := by
  have hv := strMapCodec_rt s.Values h
  obtain ⟨t, i, g, tpl, vals⟩ := s
  obtain ⟨ct, ci, cg, ctpl, cvals⟩ := cur
  simp only at hcur hv
  subst hcur
  cases vals with
  | none =>
    simp [DigestEntry.codec, DigestEntry.fields, structCodec, field, fieldOmitEmpty,
      decMembers, findField, Except.map, stringCodec_rt, StrMap.isEmpty]
  | some kvs =>
    cases kvs with
    | nil => exact absurd rfl hk
    | cons p rest =>
      simp [DigestEntry.codec, DigestEntry.fields, structCodec, field, fieldOmitEmpty,
        decMembers, findField, Except.map, stringCodec_rt, StrMap.isEmpty, hv]

theorem alert_rt (lib : JsonLib) (s cur : Alert) (h : s.Canonical)
    (hcur : cur.Aggregates = none) :
    (Alert.codec lib).dec ((Alert.codec lib).enc s) cur = .ok s := by
  have hv := strMapCodec_rt s.Aggregates h
  simp [Alert.codec, Alert.fields, structCodec, field, decMembers, findField, Except.map,
    stringCodec_rt, boolCodec_rt, intCodec_rt, hcur, hv]

theorem alertContext_rt (lib : JsonLib) (s cur : AlertContext) (h : s.Canonical)
    (hk : ∀ g ∈ s.Digests.elems, g.KeepsValues) (hcur : cur.Digests = none) :
    (AlertContext.codec lib).dec ((AlertContext.codec lib).enc s) cur = .ok s := by
  have hus := fun c => sliceCodec_rt (UserSource.codec lib) default s.UserSources c
    (fun x hx start => userSource_rt lib x start (h.1 x hx))
  have h1 := fun c => anyCodec_rt lib s.CloudtrailSources c h.2.1
  have h2 := fun c => anyCodec_rt lib s.CloudtrailTasks c h.2.2.1
  have h3 := fun c => anyCodec_rt lib s.CloudtrailAuthMethods c h.2.2.2.1
  have hdg := sliceCodec_rt_fresh (DigestEntry.codec lib) default s.Digests
    (fun x hx => digestEntry_rt lib x default (h.2.2.2.2 x hx) (hk x hx) rfl)
  simp [AlertContext.codec, AlertContext.fields, structCodec, field, decMembers, findField,
    Except.map, userAgentSlice_rt, userProcessSlice_rt, hus, h1, h2, h3, hcur, hdg]

theorem fullAlert_rt (lib : JsonLib) (s cur : FullAlert) (h : s.Canonical)
    (hk : ∀ g ∈ s.AlertContext.Digests.elems, g.KeepsValues)
    (hcur : cur.Alert.Aggregates = none) (hcur2 : cur.AlertContext.Digests = none) :
    (FullAlert.codec lib).dec ((FullAlert.codec lib).enc s) cur = .ok s := by
  have ha := alert_rt lib s.Alert cur.Alert h.1 hcur
  have he := fun c => alertEvents_rt lib s.AlertEvents c h.2.1
  have hc := alertContext_rt lib s.AlertContext cur.AlertContext h.2.2 hk hcur2
  simp [FullAlert.codec, FullAlert.fields, structCodec, field, decMembers, findField,
    Except.map, ha, he, hc]

/-- A batch that fits the nesting limit, has sorted maps and no non-nil
empty `Values` map is decoded from its document to itself. -/
theorem unmarshal_marshal (lib : JsonLib) (a : FullAlerts) (hc : a.Canonical)
    (hk : a.KeepsValues) (hd : (marshalFullAlerts lib a).depth ≤ maxNestingDepth) :
    unmarshalFullAlerts lib (marshalFullAlerts lib a) = .ok a := by
  have hs := sliceCodec_rt_fresh (FullAlert.codec lib) default a.Alerts
    (fun x hx => fullAlert_rt lib x default (hc x hx) (hk x hx) rfl rfl)
  have hz : (default : FullAlerts).Alerts = none := rfl
  have hd2 : ¬ maxNestingDepth < (marshalFullAlerts lib a).depth := Nat.not_lt.mpr hd
  rw [unmarshalFullAlerts, if_neg hd2]
  simp [marshalFullAlerts, FullAlerts.codec, FullAlerts.fields,
    structCodec, field, decMembers, findField, Except.map, hz, hs]

theorem depth_nestedSlices (lib : JsonLib) (n : Nat) :
    (encAny lib (nestedSlices n)).depth = n + 1 := by
  induction n with
  | zero => simp [nestedSlices, encAny, encAnyList, JVal.depth, depthList]
  | succ k ih => simp [nestedSlices, encAny, encAnyList, JVal.depth, depthList, ih]

theorem depth_deepBatch (lib : JsonLib) (n : Nat) :
    (marshalFullAlerts lib (deepBatch n)).depth = n + 5 := by
  simp [marshalFullAlerts, deepBatch, batchWithCloudtrail, FullAlerts.codec,
    FullAlerts.fields, FullAlert.codec, FullAlert.fields, Alert.codec, Alert.fields, AlertEvents.codec, AlertEvents.fields,
    AlertContext.codec, AlertContext.fields, structCodec, field, sliceCodec, stringCodec,
    boolCodec, intCodec, strMapCodec, anyCodec, encAny, JVal.depth, depthList, depthMembers,
    depth_nestedSlices]

/-- C9, as stated, fails in three ways. A batch whose digest carries a
non-nil empty `Values` map is encoded without the `values` member
(`omitempty`) and decodes to a batch whose `Values` is nil, a different
value. A batch whose `CloudtrailSources` nests 9997 slices has a document of
depth 10001, which the decoder refuses. A batch whose `CloudtrailSources`
holds a Go `int` 1, written as the literal `1`, decodes to a batch holding
the `float64` 1.0. -/
theorem roundtrip_fails :
    (unmarshalFullAlerts sampleJsonLib
        (marshalFullAlerts sampleJsonLib (batchWithValues (some []))) =
      .ok (batchWithValues none) ∧
    (batchWithValues none).digestValues ≠ (batchWithValues (some [])).digestValues) ∧
    unmarshalFullAlerts sampleJsonLib (marshalFullAlerts sampleJsonLib (deepBatch 9996)) =
      .error "json: exceeded max depth" ∧
    (unmarshalFullAlerts sampleJsonLib
        (marshalFullAlerts sampleJsonLib (batchWithCloudtrail (.other literalOne))) =
      .ok (batchWithCloudtrail (.float64 float64One)) ∧
    GoAny.other literalOne ≠ GoAny.float64 float64One) := by
  refine ⟨⟨rfl, by decide⟩, ?_, rfl, ?_⟩
  · rw [unmarshalFullAlerts, if_pos]
    rw [depth_deepBatch]
    decide
  · intro h
    cases h

/-- C9, amended. When `json.Marshal` writes for the batch the text of the
document its tags prescribe, no digest carries a non-nil empty `Values` map
and that document nests at most 10000 deep, the body `forwardData` posts is
decoded by `json.Unmarshal` into a fresh `FullAlerts` equal to the batch,
loosely typed fields and both maps included. -/
theorem fullAlerts_roundtrip (d : Deps) (ap : AlertProcessor)
    (parse : String → Except String JVal) (lib : JsonLib) (a : FullAlerts)
    (hm : MarshalsAs d parse lib a) (hc : a.Canonical) (hk : a.KeepsValues)
    (hd : (marshalFullAlerts lib a).depth ≤ maxNestingDepth) :
    jsonUnmarshal parse lib (forwardRequest d ap a).body = .ok a := by
  obtain ⟨text, hmar, hparse⟩ := hm
  have hbody : (forwardRequest d ap a).body = text := by
    simp [forwardRequest, hmar]
  rw [hbody, jsonUnmarshal, hparse]
  exact unmarshal_marshal lib a hc hk hd

set_option maxRecDepth 100000 in
theorem fullAlerts_roundtrip_witness :
    jsonUnmarshal sampleParse sampleJsonLib
        (forwardRequest sampleJsonDeps sampleProcessor sampleBatch).body =
      .ok sampleBatch :=
  fullAlerts_roundtrip sampleJsonDeps sampleProcessor sampleParse sampleJsonLib sampleBatch
    ⟨sampleBatchText, rfl, if_pos rfl⟩
    (by
      simp [FullAlerts.Canonical, FullAlert.Canonical, Alert.Canonical, AlertEvents.Canonical,
        Event.Canonical, AlertContext.Canonical, UserSource.Canonical, TopSource.Canonical,
        DigestEntry.Canonical, StrMap.Canonical, GoAny.Canonical, canonicalList,
        canonicalMembers, SortedKeys, sampleBatch, eventWithTags, Slice.elems]
      decide)
    (by
      simp [FullAlerts.KeepsValues, DigestEntry.KeepsValues, sampleBatch, Slice.elems])
    (by decide)

end Enricher
